import Mathlib

/-!
Shallow embedding of the extraction-and-resolution pipeline of the
`openapi-from-source` repository (src/extractor/axum.rs, src/extractor/actix.rs,
src/extractor/mod.rs, src/detector.rs, src/type_resolver.rs,
src/schema_generator.rs), together with theorems settling the frozen claims
about the natural-language specification.

Rust `String` is `String`, `Vec<T>` is `List T`, `Option<T>` is `Option T`.
`std::collections::HashMap` is modelled by an association list whose `insert`
replaces the value of an existing key in place and appends a fresh key at the
end; lookup finds the first matching key.  This is faithful to the map's
key/value content (each key present at most once); the real `HashMap` does not
maintain any insertion order, which matters for claim C2 and is discussed
there.  `std::collections::HashSet<String>` is modelled as a duplicate-free
`List String`.
-/

set_option maxHeartbeats 1000000

namespace OpenapiFromSource

/-- Association-list lookup, modelling `HashMap::get`. -/
def lookup_assoc {α : Type} (m : List (String × α)) (k : String) : Option α :=
  match m with
  | [] => none
  | (k', v) :: rest => if k' = k then some v else lookup_assoc rest k

/-- Association-list insert, modelling `HashMap::insert`: replace in place if
the key is present, append otherwise. -/
def insert_assoc {α : Type} (m : List (String × α)) (k : String) (v : α) :
    List (String × α) :=
  match m with
  | [] => [(k, v)]
  | (k', v') :: rest =>
      if k' = k then (k, v) :: rest else (k', v') :: insert_assoc rest k v

/-- Key-membership test, modelling `HashMap::contains_key`. -/
def contains_key {α : Type} (m : List (String × α)) (k : String) : Bool :=
  (lookup_assoc m k).isSome

/-- Set insert on a list modelling `HashSet::insert`. -/
def set_insert (s : List String) (k : String) : List String :=
  if s.contains k then s else k :: s

/-- Set removal modelling `HashSet::remove`. -/
def set_remove (s : List String) (k : String) : List String :=
  s.filter (fun x => x ≠ k)

/-! String helpers mirroring the `str` methods the source uses. -/

/-- Rust `str::trim_end_matches('/')`: drop every trailing `/`. -/
def trim_end_slashes (s : String) : String :=
  String.mk ((s.toList.reverse.dropWhile (fun c => c = '/')).reverse)

/-- Rust `str::trim_start_matches('/')`: drop every leading `/`. -/
def trim_start_slashes (s : String) : String :=
  String.mk (s.toList.dropWhile (fun c => c = '/'))

/-- Rust `str::trim_start_matches(':')`. -/
def trim_start_colons (s : String) : String :=
  String.mk (s.toList.dropWhile (fun c => c = ':'))

/-- Rust `str::trim_start_matches('\x7b')` (opening curly brace). -/
def trim_start_brace (s : String) : String :=
  String.mk (s.toList.dropWhile (fun c => c = '{'))

/-- Rust `str::trim_end_matches('\x7d')` (closing curly brace). -/
def trim_end_brace (s : String) : String :=
  String.mk ((s.toList.reverse.dropWhile (fun c => c = '}')).reverse)

/-- Rust `str::trim_matches('"')`: drop every leading and trailing quote. -/
def trim_quotes (s : String) : String :=
  String.mk
    (((s.toList.dropWhile (fun c => c = '"')).reverse.dropWhile
      (fun c => c = '"')).reverse)

/-- Rust `str::split('/')` and friends: split at every occurrence of the
character, keeping empty pieces (`""` splits to `[""]`). -/
def split_char (c : Char) : List Char → List (List Char)
  | [] => [[]]
  | x :: rest =>
      match split_char c rest with
      | [] => [[x]]
      | h :: t => if x = c then [] :: h :: t else (x :: h) :: t

/-- String-level wrapper for split_char. -/
def split_str (s : String) (c : Char) : List String :=
  (split_char c s.data).map String.mk

/-- Rust `str::starts_with(c)` for a character pattern. -/
def starts_with_char (s : String) (c : Char) : Bool :=
  match s.data with
  | [] => false
  | x :: _ => x = c

/-- Rust `str::ends_with(c)` for a character pattern. -/
def ends_with_char (s : String) (c : Char) : Bool :=
  match s.data.getLast? with
  | none => false
  | some x => x = c

/-- ASCII lowering of one character, for `str::to_lowercase` on the ASCII
method and attribute names the source compares. -/
def lower_char (c : Char) : Char :=
  if 'A' ≤ c ∧ c ≤ 'Z' then Char.ofNat (c.toNat + 32) else c

/-- Rust `str::to_lowercase`. -/
def to_lower_str (s : String) : String :=
  String.mk (s.data.map lower_char)

/-- Rust `str::trim`: drop leading and trailing whitespace. -/
def trim_ws (s : String) : String :=
  String.mk
    (((s.data.dropWhile Char.isWhitespace).reverse.dropWhile
      Char.isWhitespace).reverse)

/-- First index at which `pat` occurs in `l`, modelling `str::find`. -/
def list_find_sub (l pat : List Char) (i : Nat) : Option Nat :=
  match l with
  | [] => if pat.isEmpty then some i else none
  | _ :: t =>
      if pat.isPrefixOf l then some i else list_find_sub t pat (i + 1)

/-- Rust `str::find(pat)` on strings. -/
def str_find (s pat : String) : Option Nat :=
  list_find_sub s.toList pat.toList 0

/-- Rust `str::contains(pat)`. -/
def contains_substr (s pat : String) : Bool :=
  (str_find s pat).isSome

/-! Data model of src/extractor/mod.rs. -/

/-- TypeInfo from src/extractor/mod.rs (the spec's TypeDescriptor):
`\x7b name, is_generic, generic_args, is_option, is_vec \x7d`.
Recursive through its argument list, hence an inductive. -/
inductive TypeInfo : Type where
  | mk (name : String) (is_generic : Bool) (generic_args : List TypeInfo)
      (is_option : Bool) (is_vec : Bool)

def TypeInfo.name : TypeInfo → String
  | .mk n _ _ _ _ => n

def TypeInfo.is_generic : TypeInfo → Bool
  | .mk _ g _ _ _ => g

def TypeInfo.generic_args : TypeInfo → List TypeInfo
  | .mk _ _ a _ _ => a

def TypeInfo.is_option : TypeInfo → Bool
  | .mk _ _ _ o _ => o

def TypeInfo.is_vec : TypeInfo → Bool
  | .mk _ _ _ _ v => v

/-- TypeInfo::new: a simple type. -/
def TypeInfo.new (name : String) : TypeInfo :=
  .mk name false [] false false

/-- TypeInfo::option: an `Option<T>` node wrapping `inner`. -/
def TypeInfo.option (inner : TypeInfo) : TypeInfo :=
  .mk inner.name false [inner] true false

/-- TypeInfo::vec: a `Vec<T>` node wrapping `inner`. -/
def TypeInfo.vec (inner : TypeInfo) : TypeInfo :=
  .mk inner.name false [inner] false true

/-- HttpMethod from src/extractor/mod.rs. -/
inductive HttpMethod : Type where
  | get | post | put | delete | patch | options | head
deriving DecidableEq

/-- ParameterLocation from src/extractor/mod.rs. -/
inductive ParameterLocation : Type where
  | path | query | header
deriving DecidableEq

/-- Parameter from src/extractor/mod.rs. -/
structure Parameter : Type where
  name : String
  location : ParameterLocation
  type_info : TypeInfo
  required : Bool

/-- RouteInfo from src/extractor/mod.rs. -/
structure RouteInfo : Type where
  path : String
  method : HttpMethod
  handler_name : String
  parameters : List Parameter
  request_body : Option TypeInfo
  response_type : Option TypeInfo

/-- RouteInfo::new. -/
def RouteInfo.new (path : String) (method : HttpMethod)
    (handler_name : String) : RouteInfo :=
  ⟨path, method, handler_name, [], none, none⟩

/-! Embedding of the `syn` type grammar, restricted to the constructors the
source inspects.  `Ty` is `syn::Type`, `PathSeg` is `syn::PathSegment`,
`PathArgs` is `syn::PathArguments`, `GenArg` is `syn::GenericArgument`.
Every shape the source does not distinguish collapses into a catch-all
constructor. -/

mutual

inductive Ty : Type where
  | path (segs : List PathSeg)
  | reference (elem : Ty)
  | implTrait
  | tuple (elems : List Ty)
  | otherTy

inductive PathSeg : Type where
  | mk (ident : String) (arguments : PathArgs)

inductive PathArgs : Type where
  | noArgs
  | angle (args : List GenArg)
  | paren

inductive GenArg : Type where
  | tyArg (t : Ty)
  | otherArg

end

def PathSeg.ident : PathSeg → String
  | .mk i _ => i

def PathSeg.arguments : PathSeg → PathArgs
  | .mk _ a => a

/-- The idiom `if let PathArguments::AngleBracketed(args) = &segment.arguments
\x7b if let Some(GenericArgument::Type(inner)) = args.args.first() \x7d`, used at
every generic-unwrapping site of the source. -/
def first_type_arg (seg : PathSeg) : Option Ty :=
  match seg.arguments with
  | .angle args =>
      match args.head? with
      | some (.tyArg t) => some t
      | _ => none
  | _ => none

theorem mem_of_getLast? {α : Type} {l : List α} {a : α}
    (h : l.getLast? = some a) : a ∈ l := by
  induction l with
  | nil => simp [List.getLast?] at h
  | cons x xs ih =>
      cases xs with
      | nil =>
          simp [List.getLast?] at h
          simp [h]
      | cons y ys =>
          rw [List.getLast?_cons_cons] at h
          exact List.mem_cons_of_mem x (ih h)

theorem sizeOf_lt_of_getLast? {l : List PathSeg} {seg : PathSeg}
    (h : l.getLast? = some seg) : sizeOf seg < sizeOf l := by
  exact List.sizeOf_lt_of_mem (mem_of_getLast? h)

theorem sizeOf_lt_of_first_type_arg {seg : PathSeg} {t : Ty}
    (h : first_type_arg seg = some t) : sizeOf t < sizeOf seg := by
  rcases seg with ⟨i, args⟩
  cases args with
  | noArgs => simp [first_type_arg, PathSeg.arguments] at h
  | paren => simp [first_type_arg, PathSeg.arguments] at h
  | angle gargs =>
      cases gargs with
      | nil => simp [first_type_arg, PathSeg.arguments] at h
      | cons g rest =>
          cases g with
          | otherArg => simp [first_type_arg, PathSeg.arguments] at h
          | tyArg t' =>
              simp [first_type_arg, PathSeg.arguments] at h
              subst h
              simp
              omega

theorem sizeOf_first_type_arg_lt_path {segs : List PathSeg} {seg : PathSeg}
    {t : Ty} (h1 : segs.getLast? = some seg) (h2 : first_type_arg seg = some t) :
    sizeOf t < sizeOf (Ty.path segs) := by
  have a1 := sizeOf_lt_of_first_type_arg h2
  have a2 := sizeOf_lt_of_getLast? h1
  have : sizeOf (Ty.path segs) = 1 + sizeOf segs := by simp
  omega

/-- AxumVisitor::extract_type_info / ActixVisitor::extract_type_info
(textually identical in src/extractor/axum.rs and src/extractor/actix.rs):
unwrap `Option<T>` and `Vec<T>`, otherwise a simple type named after the last
path segment; non-path types become `unknown`. -/
def extract_type_info (ty : Ty) : TypeInfo :=
  match ty with
  | .path segs =>
      match h1 : segs.getLast? with
      | some seg =>
          let type_name := seg.ident
          if type_name = "Option" then
            match h2 : first_type_arg seg with
            | some inner => TypeInfo.option (extract_type_info inner)
            | none => TypeInfo.new type_name
          else if type_name = "Vec" then
            match h2 : first_type_arg seg with
            | some inner => TypeInfo.vec (extract_type_info inner)
            | none => TypeInfo.new type_name
          else TypeInfo.new type_name
      | none => TypeInfo.new "unknown"
  | _ => TypeInfo.new "unknown"
termination_by sizeOf ty
decreasing_by
  all_goals exact sizeOf_first_type_arg_lt_path h1 h2

mutual

/-- TypeResolver::extract_type_info from src/type_resolver.rs: path types go
through extract_type_info_from_path, everything else is `Unknown`. -/
def resolver_extract_type_info (ty : Ty) : TypeInfo :=
  match ty with
  | .path segs => resolver_extract_from_path segs
  | _ => TypeInfo.new "Unknown"
termination_by sizeOf ty
decreasing_by all_goals (simp_wf <;> omega)

/-- TypeResolver::extract_type_info_from_path: unwrap `Option<T>` / `Vec<T>`,
collect the type arguments of any other angle-bracketed segment into a
generic TypeInfo, else a simple type. -/
def resolver_extract_from_path (segs : List PathSeg) : TypeInfo :=
  match h1 : segs.getLast? with
  | some seg =>
      let type_name := seg.ident
      if type_name = "Option" then
        match h2 : first_type_arg seg with
        | some inner => TypeInfo.option (resolver_extract_type_info inner)
        | none => resolver_extract_generic seg
      else if type_name = "Vec" then
        match h2 : first_type_arg seg with
        | some inner => TypeInfo.vec (resolver_extract_type_info inner)
        | none => resolver_extract_generic seg
      else resolver_extract_generic seg
  | none => TypeInfo.new "Unknown"
termination_by sizeOf segs
decreasing_by
  all_goals simp_wf
  all_goals first
    | (exact Nat.lt_trans (sizeOf_lt_of_first_type_arg h2)
        (sizeOf_lt_of_getLast? h1))
    | (exact sizeOf_lt_of_getLast? h1)

/-- The tail of extract_type_info_from_path: the generic-arguments branch
followed by the simple-type fallback. -/
def resolver_extract_generic (seg : PathSeg) : TypeInfo :=
  match seg with
  | .mk i (.angle gargs) =>
      let generic_args := resolver_collect_args gargs
      .mk i (!generic_args.isEmpty) generic_args false false
  | .mk i _ => TypeInfo.new i
termination_by sizeOf seg
decreasing_by all_goals (simp_wf <;> omega)

/-- The loop `for arg in &args.args \x7b if let GenericArgument::Type(inner)
= arg \x7d` collecting recursively extracted type arguments. -/
def resolver_collect_args (gargs : List GenArg) : List TypeInfo :=
  match gargs with
  | [] => []
  | .tyArg t :: rest => resolver_extract_type_info t :: resolver_collect_args rest
  | .otherArg :: rest => resolver_collect_args rest
termination_by sizeOf gargs
decreasing_by all_goals (simp_wf <;> omega)

end

/-! Item-level `syn` embedding. -/

/-- The payload of `syn::Meta` as the source reads it: a Meta::List carries
the token stream rendered to a string, anything else is opaque. -/
inductive AttrMeta : Type where
  | list (tokens : String)
  | otherMeta

/-- An attribute (`syn::Attribute`): its path segments and its meta. -/
structure Attr : Type where
  path_segs : List String
  meta : AttrMeta

/-- A function argument (`syn::FnArg`): the source only looks at
`FnArg::Typed` and only at its type. -/
inductive FnArg : Type where
  | typed (ty : Ty)
  | receiver

/-- A function signature (`syn::Signature`): name, inputs, and return type
(`ReturnType::Default` is `none`). -/
structure Signature : Type where
  ident : String
  inputs : List FnArg
  output : Option Ty

/-- A named struct field (`syn::Field`): tuple fields have `ident = none`. -/
structure Field : Type where
  ident : Option String
  attrs : List Attr
  ty : Ty

/-- The fields of a struct (`syn::Fields`): the source only handles
`Fields::Named`. -/
inductive StructFields : Type where
  | named (fields : List Field)
  | otherFields

/-- A struct item (`syn::ItemStruct`). -/
structure ItemStruct : Type where
  ident : String
  fields : StructFields

/-- An enum item (`syn::ItemEnum`): the source reads only variant idents. -/
structure ItemEnum : Type where
  ident : String
  variants : List String

/-- An import tree (`syn::UseTree`). -/
inductive UseTree : Type where
  | path (ident : String) (tree : UseTree)
  | name (ident : String)
  | rename (ident : String) (asIdent : String)
  | glob
  | group (items : List UseTree)

/-- One syntax node.  Items, statements and expressions are collapsed into a
single inductive to keep the mutual recursion small; the constructors carry
exactly the data the source inspects.  `fnDecl` is `syn::ItemFn` (function
name read from the signature), `methodCall` is `syn::ExprMethodCall`
(receiver, method ident, arguments), `call` is `syn::ExprCall`, `pathExpr` is
`syn::ExprPath` (segment idents), `litStr` is a string literal expression,
`blockExpr` groups nested statements or items (blocks, closures bodies), and
`otherExpr` is any other node whose children the default `syn` visitor still
walks. -/
inductive Syn : Type where
  | fnDecl (attrs : List Attr) (sig : Signature) (body : List Syn)
  | structDecl (s : ItemStruct)
  | enumDecl (e : ItemEnum)
  | useDecl (t : UseTree)
  | otherItem
  | methodCall (recv : Syn) (method : String) (args : List Syn)
  | call (func : Syn) (args : List Syn)
  | pathExpr (segs : List String)
  | litStr (s : String)
  | litOther
  | blockExpr (stmts : List Syn)
  | otherExpr (children : List Syn)

/-- A parsed source file (`ParsedFile` from src/parser.rs): the path is
irrelevant to the pipeline, only the syntax tree's items matter. -/
structure ParsedFile : Type where
  items : List Syn

/-! Shared route-extraction helpers of src/extractor/axum.rs and
src/extractor/actix.rs. -/

/-- AxumVisitor::parse_http_method / ActixVisitor::parse_http_method
(identical in both files). -/
def parse_http_method (method : String) : Option HttpMethod :=
  match to_lower_str method with
  | "get" => some .get
  | "post" => some .post
  | "put" => some .put
  | "delete" => some .delete
  | "patch" => some .patch
  | "head" => some .head
  | "options" => some .options
  | _ => none

/-- AxumVisitor::combine_paths / ActixVisitor::combine_paths (identical in
both files): strip trailing slashes from the first part and leading slashes
from the second, join with a single slash; an empty suffix yields the bare
first part. -/
def combine_paths (pfx path : String) : String :=
  if pfx = "" then path
  else
    let pfx' := trim_end_slashes pfx
    let path' := trim_start_slashes path
    if path' = "" then pfx' else pfx' ++ "/" ++ path'

/-- AxumVisitor::extract_string_literal / ActixVisitor::extract_string_literal:
a string literal expression yields its value. -/
def extract_string_literal (e : Syn) : Option String :=
  match e with
  | .litStr s => some s
  | _ => none

/-- AxumVisitor::extract_path_parameters: every `/`-separated segment that
starts with `:` becomes a required path parameter of placeholder type
`String`. -/
def axum_extract_path_parameters (path : String) : List Parameter :=
  (split_str path '/').foldl
    (fun acc seg =>
      if starts_with_char seg ':' then
        acc ++ [⟨trim_start_colons seg, .path, TypeInfo.new "String", true⟩]
      else acc) []

/-- ActixVisitor::extract_path_parameters: every segment that starts with
an opening and ends with a closing curly brace becomes a required path
parameter of placeholder type `String`. -/
def actix_extract_path_parameters (path : String) : List Parameter :=
  (split_str path '/').foldl
    (fun acc seg =>
      if starts_with_char seg '{' && ends_with_char seg '}' then
        acc ++ [⟨trim_end_brace (trim_start_brace seg), .path,
                 TypeInfo.new "String", true⟩]
      else acc) []

/-- AxumVisitor::parse_extractor_type / ActixVisitor::parse_extractor_type
(identical in both files): recognise `Json<T>`, `Path<T>`, `Query<T>` by the
last path segment and return the extractor name with the extracted inner
TypeInfo. -/
def parse_extractor_type (ty : Ty) : Option (String × TypeInfo) :=
  match ty with
  | .path segs =>
      match segs.getLast? with
      | some seg =>
          let extractor_name := seg.ident
          if extractor_name = "Json" ∨ extractor_name = "Path" ∨
              extractor_name = "Query" then
            match first_type_arg seg with
            | some inner => some (extractor_name, extract_type_info inner)
            | none => none
          else none
      | none => none
  | _ => none

/-- AxumVisitor::parse_extractors / ActixVisitor::parse_extractors (identical
in both files): walk the typed inputs; a `Json` extractor sets the request
body, a `Path` extractor appends a required `path_params` parameter, a
`Query` extractor appends an optional `query_params` parameter. -/
def parse_extractors (sig : Signature) : List Parameter × Option TypeInfo :=
  sig.inputs.foldl
    (fun acc input =>
      match input with
      | .typed ty =>
          match parse_extractor_type ty with
          | some (extractor_name, inner) =>
              if extractor_name = "Json" then (acc.1, some inner)
              else if extractor_name = "Path" then
                (acc.1 ++ [⟨"path_params", .path, inner, true⟩], acc.2)
              else if extractor_name = "Query" then
                (acc.1 ++ [⟨"query_params", .query, inner, false⟩], acc.2)
              else acc
          | none => acc
      | .receiver => acc)
    ([], none)

/-- AxumVisitor::extract_json_from_type: a path type whose last segment is
`Json` with a first type argument yields the extracted inner type. -/
def extract_json_from_type (ty : Ty) : Option TypeInfo :=
  match ty with
  | .path segs =>
      match segs.getLast? with
      | some seg =>
          if seg.ident = "Json" then
            match first_type_arg seg with
            | some inner => some (extract_type_info inner)
            | none => none
          else none
      | none => none
  | _ => none

/-- The tuple loop of AxumVisitor::parse_return_type: the first element that
is a `Json<T>` wins. -/
def find_json_in_elems (elems : List Ty) : Option TypeInfo :=
  match elems with
  | [] => none
  | e :: rest =>
      match extract_json_from_type e with
      | some ti => some ti
      | none => find_json_in_elems rest

/-- AxumVisitor::parse_return_type: `impl Trait` yields nothing, `&T` yields
the extracted `T`, a path type unwraps `Json<T>` directly and `Result<T, _>`
recursively, any other path type is extracted as-is, and a tuple is scanned
for a `Json<T>` element. -/
def parse_return_type (ty : Ty) : Option TypeInfo :=
  match ty with
  | .implTrait => none
  | .reference elem => some (extract_type_info elem)
  | .path segs =>
      match h1 : segs.getLast? with
      | some seg =>
          let type_name := seg.ident
          if type_name = "Json" then
            match first_type_arg seg with
            | some inner => some (extract_type_info inner)
            | none => some (extract_type_info (Ty.path segs))
          else if type_name = "Result" then
            match h2 : first_type_arg seg with
            | some ok_ty => parse_return_type ok_ty
            | none => some (extract_type_info (Ty.path segs))
          else some (extract_type_info (Ty.path segs))
      | none => none
  | .tuple elems => find_json_in_elems elems
  | .otherTy => none
termination_by sizeOf ty
decreasing_by
  all_goals exact sizeOf_first_type_arg_lt_path h1 h2

/-- AxumVisitor::parse_response_type: parse the declared return type if
there is one. -/
def parse_response_type (sig : Signature) : Option TypeInfo :=
  match sig.output with
  | none => none
  | some ty => parse_return_type ty

/-! The Axum route extractor (src/extractor/axum.rs). -/

/-- The mutable state of AxumVisitor: discovered routes, the current prefix
(source field `current_prefix` — initialised empty and, as the theorems for
claim C1 show, never written anywhere), and the function-signature table. -/
structure AxumState : Type where
  routes : List RouteInfo
  prefix_acc : String
  functions : List (String × Signature)

/-- AxumVisitor::new. -/
def AxumState.init : AxumState := ⟨[], "", []⟩

/-- AxumVisitor::extract_handler_name_from_expr: the last segment of a path
expression, `unknown` for anything else. -/
def extract_handler_name_from_expr (e : Syn) : String :=
  match e with
  | .pathExpr segs => (segs.getLast?).getD "unknown"
  | _ => "unknown"

/-- AxumVisitor::extract_handler_name, applied to the arguments of the inner
call expression: the handler name of its first argument, `unknown` if there
is none. -/
def extract_handler_name (call_args : List Syn) : String :=
  match call_args.head? with
  | some arg => extract_handler_name_from_expr arg
  | none => "unknown"

/-- AxumVisitor::parse_route_method: `.route(path, method(handler))` with a
literal path and a call whose callee's last path segment is an HTTP method
yields a route; anything else yields none. -/
def parse_route_method (args : List Syn) (pfx : String) : Option RouteInfo :=
  match args with
  | a0 :: a1 :: _ =>
      match extract_string_literal a0 with
      | none => none
      | some path =>
          let full_path := combine_paths pfx path
          match a1 with
          | .call (.pathExpr fsegs) call_args =>
              match fsegs.getLast? with
              | some method_name =>
                  match parse_http_method method_name with
                  | some method =>
                      let handler_name := extract_handler_name call_args
                      some { RouteInfo.new full_path method handler_name with
                               parameters := axum_extract_path_parameters full_path }
                  | none => none
              | none => none
          | _ => none
  | _ => none

/-- AxumVisitor::parse_shorthand_method: `.get(path, handler)` or
`.get(handler)`; in the bare-handler form the path is the current prefix. -/
def parse_shorthand_method (args : List Syn) (pfx : String)
    (method_name : String) : Option RouteInfo :=
  match args with
  | [] => none
  | a0 :: rest =>
      match parse_http_method method_name with
      | none => none
      | some method =>
          match extract_string_literal a0 with
          | some path =>
              let full_path := combine_paths pfx path
              let handler_name :=
                match rest.head? with
                | some a1 => extract_handler_name_from_expr a1
                | none => "unknown"
              some { RouteInfo.new full_path method handler_name with
                       parameters := axum_extract_path_parameters full_path }
          | none =>
              let handler_name := extract_handler_name_from_expr a0
              some { RouteInfo.new pfx method handler_name with
                       parameters := axum_extract_path_parameters pfx }

/-- AxumVisitor::parse_nest_method: combine the current prefix with the
literal first argument. -/
def parse_nest_method (args : List Syn) (pfx : String) : Option String :=
  match args with
  | [] => none
  | a0 :: _ => (extract_string_literal a0).map (combine_paths pfx)

/-- The method-name set guarding AxumVisitor::visit_expr_method_call. -/
def is_router_method (m : String) : Bool :=
  m = "route" || m = "get" || m = "post" || m = "put" || m = "delete" ||
  m = "patch" || m = "head" || m = "options" || m = "nest"

/-- AxumVisitor::parse_single_method: push the parsed route for `route` and
the shorthand methods; for `nest` the nested prefix is computed but
parse_router_expr (the source's own comment: kept for potential future use)
does nothing with it, so the state is unchanged. -/
def parse_single_method (st : AxumState) (method : String) (args : List Syn)
    (pfx : String) : AxumState :=
  if method = "route" then
    match parse_route_method args pfx with
    | some route_info => { st with routes := st.routes ++ [route_info] }
    | none => st
  else if method = "get" || method = "post" || method = "put" ||
      method = "delete" || method = "patch" || method = "head" ||
      method = "options" then
    match parse_shorthand_method args pfx method with
    | some route_info => { st with routes := st.routes ++ [route_info] }
    | none => st
  else if method = "nest" then
    match parse_nest_method args pfx with
    | some _nested => st
    | none => st
  else st

mutual

/-- AxumVisitor as a Visit impl: register every function signature, fire
parse_single_method on router method calls, and walk all children in source
order (receiver before arguments), as the default `syn` traversal does. -/
def axum_visit (st : AxumState) (node : Syn) : AxumState :=
  match node with
  | .fnDecl _attrs sig body =>
      let st := { st with functions := insert_assoc st.functions sig.ident sig }
      axum_visit_list st body
  | .methodCall recv method args =>
      let st :=
        if is_router_method method then
          parse_single_method st method args st.prefix_acc
        else st
      axum_visit_list (axum_visit st recv) args
  | .call func args => axum_visit_list (axum_visit st func) args
  | .blockExpr stmts => axum_visit_list st stmts
  | .otherExpr children => axum_visit_list st children
  | _ => st
termination_by sizeOf node
decreasing_by all_goals (simp_wf <;> omega)

/-- Left-to-right traversal of sibling nodes. -/
def axum_visit_list (st : AxumState) (nodes : List Syn) : AxumState :=
  match nodes with
  | [] => st
  | n :: rest => axum_visit_list (axum_visit st n) rest
termination_by sizeOf nodes
decreasing_by all_goals (simp_wf <;> omega)

end

/-- The per-route body of AxumVisitor::analyze_handlers: when the handler
name is found, append the extractor-derived parameters to the path-derived
ones and fill in the request body and response type; otherwise leave the
route untouched (logged only). -/
def axum_analyze_one (functions : List (String × Signature)) (r : RouteInfo) :
    RouteInfo :=
  match lookup_assoc functions r.handler_name with
  | some fn_sig =>
      let pe := parse_extractors fn_sig
      { r with parameters := r.parameters ++ pe.1,
               request_body := pe.2,
               response_type := parse_response_type fn_sig }
  | none => r

/-- AxumVisitor::analyze_handlers over the whole route list. -/
def axum_analyze_handlers (st : AxumState) : AxumState :=
  { st with routes := st.routes.map (axum_analyze_one st.functions) }

/-- AxumExtractor::extract_routes: visit every file, then analyze handlers. -/
def axum_extract_routes (parsed_files : List ParsedFile) : List RouteInfo :=
  let st := parsed_files.foldl (fun st pf => axum_visit_list st pf.items)
    AxumState.init
  (axum_analyze_handlers st).routes

/-! The Actix route extractor (src/extractor/actix.rs). -/

/-- The mutable state of ActixVisitor. -/
structure ActixState : Type where
  routes : List RouteInfo
  current_scope : String
  functions : List (String × Signature)

/-- ActixVisitor::new. -/
def ActixState.init : ActixState := ⟨[], "", []⟩

/-- ActixVisitor::extract_path_from_tokens: trim whitespace and quotes; an
empty remainder is no path. -/
def extract_path_from_tokens (tokens : String) : Option String :=
  let cleaned := trim_quotes (trim_ws tokens)
  if cleaned = "" then none else some cleaned

/-- ActixVisitor::parse_route_macro: an attribute whose last path segment is
an HTTP method name and whose meta is a list yields the method and the path
recovered from the rendered tokens. -/
def parse_route_macro (attr : Attr) : Option (HttpMethod × String) :=
  match attr.path_segs.getLast? with
  | none => none
  | some attr_name =>
      match parse_http_method attr_name with
      | none => none
      | some method =>
          match attr.meta with
          | .list tokens =>
              match extract_path_from_tokens tokens with
              | some path => some (method, path)
              | none => none
          | .otherMeta => none

/-- ActixVisitor::find_route_macros: push one route per method attribute,
combining the attribute path with the current scope. -/
def find_route_macros (st : ActixState) (fn_name : String)
    (attrs : List Attr) : ActixState :=
  attrs.foldl
    (fun st attr =>
      match parse_route_macro attr with
      | some (method, path) =>
          let full_path := combine_paths st.current_scope path
          let route := { RouteInfo.new full_path method fn_name with
                           parameters := actix_extract_path_parameters full_path }
          { st with routes := st.routes ++ [route] }
      | none => st)
    st

/-- ActixVisitor::extract_scope_path: the literal first argument of a
`.scope(...)` call. -/
def extract_scope_path (args : List Syn) : Option String :=
  match args with
  | [] => none
  | a0 :: _ => extract_string_literal a0

mutual

/-- ActixVisitor as a Visit impl: visit_item_fn registers the signature and
fires find_route_macros before walking the body; visit_expr_method_call
pushes a combined scope around the children of a `.scope(path)` call and
restores the previous scope afterwards (LIFO). -/
def actix_visit (st : ActixState) (node : Syn) : ActixState :=
  match node with
  | .fnDecl attrs sig body =>
      let st := { st with functions := insert_assoc st.functions sig.ident sig }
      let st := find_route_macros st sig.ident attrs
      actix_visit_list st body
  | .methodCall recv method args =>
      if method = "scope" then
        match extract_scope_path args with
        | some scope_path =>
            let old_scope := st.current_scope
            let st := { st with
                          current_scope := combine_paths old_scope scope_path }
            let st := actix_visit_list (actix_visit st recv) args
            { st with current_scope := old_scope }
        | none => actix_visit_list (actix_visit st recv) args
      else actix_visit_list (actix_visit st recv) args
  | .call func args => actix_visit_list (actix_visit st func) args
  | .blockExpr stmts => actix_visit_list st stmts
  | .otherExpr children => actix_visit_list st children
  | _ => st
termination_by sizeOf node
decreasing_by all_goals (simp_wf <;> omega)

/-- Left-to-right traversal of sibling nodes. -/
def actix_visit_list (st : ActixState) (nodes : List Syn) : ActixState :=
  match nodes with
  | [] => st
  | n :: rest => actix_visit_list (actix_visit st n) rest
termination_by sizeOf nodes
decreasing_by all_goals (simp_wf <;> omega)

end

/-- The per-route body of ActixVisitor::analyze_handlers: when the handler
name is found, append the extractor-derived parameters and fill in the
request body; unlike the Axum pass, the response type is not touched. -/
def actix_analyze_one (functions : List (String × Signature)) (r : RouteInfo) :
    RouteInfo :=
  match lookup_assoc functions r.handler_name with
  | some fn_sig =>
      let pe := parse_extractors fn_sig
      { r with parameters := r.parameters ++ pe.1,
               request_body := pe.2 }
  | none => r

/-- ActixVisitor::analyze_handlers over the whole route list. -/
def actix_analyze_handlers (st : ActixState) : ActixState :=
  { st with routes := st.routes.map (actix_analyze_one st.functions) }

/-- ActixExtractor::extract_routes. -/
def actix_extract_routes (parsed_files : List ParsedFile) : List RouteInfo :=
  let st := parsed_files.foldl (fun st pf => actix_visit_list st pf.items)
    ActixState.init
  (actix_analyze_handlers st).routes

/-! The framework detector (src/detector.rs). -/

/-- Framework from src/cli.rs. -/
inductive Framework : Type where
  | axum
  | actixWeb
deriving DecidableEq

/-- The content of the `HashSet<Framework>` accumulated by
FrameworkDetector::detect.  A two-variant set is exactly a pair of flags;
repeated inserts of the same framework change nothing. -/
structure DetectedSet : Type where
  axum : Bool
  actix_web : Bool
deriving DecidableEq

/-- HashSet::insert on the detected-framework set. -/
def detected_insert (s : DetectedSet) (f : Framework) : DetectedSet :=
  match f with
  | .axum => { s with axum := true }
  | .actixWeb => { s with actix_web := true }

mutual

/-- FrameworkDetector::check_use_tree: every path-segment ident along a
`UseTree::Path` chain is compared against both framework names and the rest
of the path is visited recursively; groups recurse into every item; names
and renames compare their (original) ident; globs carry no signal. -/
def check_use_tree (tree : UseTree) (detected : DetectedSet) : DetectedSet :=
  match tree with
  | .path ident rest =>
      let detected := if ident = "axum" then detected_insert detected .axum
        else detected
      let detected := if ident = "actix_web" then
          detected_insert detected .actixWeb
        else detected
      check_use_tree rest detected
  | .group items => check_use_tree_list items detected
  | .rename ident _ =>
      let detected := if ident = "axum" then detected_insert detected .axum
        else detected
      if ident = "actix_web" then detected_insert detected .actixWeb
      else detected
  | .name ident =>
      let detected := if ident = "axum" then detected_insert detected .axum
        else detected
      if ident = "actix_web" then detected_insert detected .actixWeb
      else detected
  | .glob => detected
termination_by sizeOf tree
decreasing_by all_goals (simp_wf <;> omega)

/-- The loop over a use-group's items. -/
def check_use_tree_list (items : List UseTree) (detected : DetectedSet) :
    DetectedSet :=
  match items with
  | [] => detected
  | t :: rest => check_use_tree_list rest (check_use_tree t detected)
termination_by sizeOf items
decreasing_by all_goals (simp_wf <;> omega)

end

/-- FrameworkDetector::detect: fold check_use_tree over every `use` item of
every file.  The source finally copies the set into a vector in unspecified
`HashSet` iteration order; the set content is what is modelled. -/
def detect (parsed_files : List ParsedFile) : DetectedSet :=
  parsed_files.foldl
    (fun acc pf =>
      pf.items.foldl
        (fun acc item =>
          match item with
          | .useDecl tree => check_use_tree tree acc
          | _ => acc)
        acc)
    ⟨false, false⟩

/-! The type resolver (src/type_resolver.rs). -/

/-- PrimitiveType from src/type_resolver.rs. -/
inductive PrimitiveType : Type where
  | string | i8 | i16 | i32 | i64 | i128
  | u8 | u16 | u32 | u64 | u128
  | f32 | f64 | bool | char
deriving DecidableEq

/-- SerdeAttributes from src/type_resolver.rs. -/
structure SerdeAttributes : Type where
  rename : Option String
  skip : Bool
  flatten : Bool
deriving DecidableEq

/-- FieldDef from src/type_resolver.rs. -/
structure FieldDef : Type where
  name : String
  type_info : TypeInfo
  optional : Bool
  serde_attrs : SerdeAttributes

/-- StructDef from src/type_resolver.rs. -/
structure StructDef : Type where
  fields : List FieldDef

/-- EnumDef from src/type_resolver.rs. -/
structure EnumDef : Type where
  variants : List String

/-- TypeKind from src/type_resolver.rs. -/
inductive TypeKind : Type where
  | structK (s : StructDef)
  | enumK (e : EnumDef)
  | primitiveK (p : PrimitiveType)
  | genericK (placeholder : String)

/-- ResolvedType from src/type_resolver.rs. -/
structure ResolvedType : Type where
  name : String
  kind : TypeKind

/-- TypeResolver::parse_primitive_type. -/
def parse_primitive_type (type_name : String) : Option PrimitiveType :=
  match type_name with
  | "String" | "str" => some .string
  | "i8" => some .i8
  | "i16" => some .i16
  | "i32" => some .i32
  | "i64" => some .i64
  | "i128" => some .i128
  | "u8" => some .u8
  | "u16" => some .u16
  | "u32" => some .u32
  | "u64" => some .u64
  | "u128" => some .u128
  | "f32" => some .f32
  | "f64" => some .f64
  | "bool" => some .bool
  | "char" => some .char
  | _ => none

/-- TypeResolver::extract_rename_value: scan the rendered token text for
`rename`, then for `=`, then for an opening and a closing quote; the value is
the text between the quotes. -/
def extract_rename_value (tokens_str : String) : Option String :=
  match str_find tokens_str "rename" with
  | none => none
  | some rename_pos =>
      let after_rename := tokens_str.toList.drop rename_pos
      match after_rename.findIdx? (fun c => c = '=') with
      | none => none
      | some eq_pos =>
          let after_eq := after_rename.drop (eq_pos + 1)
          match after_eq.findIdx? (fun c => c = '"') with
          | none => none
          | some start_quote =>
              let after_start := after_eq.drop (start_quote + 1)
              match after_start.findIdx? (fun c => c = '"') with
              | none => none
              | some end_quote => some (String.mk (after_start.take end_quote))

/-- TypeResolver::parse_serde_attributes: substring scanning of each
`serde(...)` attribute's rendered tokens for rename, skip (excluding
skip_serializing_if) and flatten. -/
def parse_serde_attributes (attrs : List Attr) : SerdeAttributes :=
  attrs.foldl
    (fun serde_attrs attr =>
      if attr.path_segs ≠ ["serde"] then serde_attrs
      else
        match attr.meta with
        | .list tokens_str =>
            let serde_attrs :=
              match extract_rename_value tokens_str with
              | some value => { serde_attrs with rename := some value }
              | none => serde_attrs
            let serde_attrs :=
              if contains_substr tokens_str "skip" &&
                  !contains_substr tokens_str "skip_serializing_if" then
                { serde_attrs with skip := true }
              else serde_attrs
            if contains_substr tokens_str "flatten" then
              { serde_attrs with flatten := true }
            else serde_attrs
        | .otherMeta => serde_attrs)
    ⟨none, false, false⟩

/-- TypeResolver::parse_field: a named field yields its FieldDef; `optional`
mirrors the extracted TypeInfo's is_option flag. -/
def parse_field (field : Field) : Option FieldDef :=
  match field.ident with
  | none => none
  | some field_name =>
      let type_info := resolver_extract_type_info field.ty
      let optional := type_info.is_option
      let serde_attrs := parse_serde_attributes field.attrs
      some ⟨field_name, type_info, optional, serde_attrs⟩

/-- TypeResolver::parse_struct_fields: only named fields are handled. -/
def parse_struct_fields (item_struct : ItemStruct) : List FieldDef :=
  match item_struct.fields with
  | .named named_fields =>
      named_fields.foldl
        (fun acc field =>
          match parse_field field with
          | some field_def => acc ++ [field_def]
          | none => acc)
        []
  | .otherFields => []

/-- TypeResolver::parse_struct_definition. -/
def parse_struct_definition (item_struct : ItemStruct) : ResolvedType :=
  ⟨item_struct.ident, .structK ⟨parse_struct_fields item_struct⟩⟩

/-- TypeResolver::parse_enum_definition: variant idents as plain strings. -/
def parse_enum_definition (item_enum : ItemEnum) : ResolvedType :=
  ⟨item_enum.ident, .enumK ⟨item_enum.variants⟩⟩

/-- The inner loop of TypeResolver::find_struct_definition over one file's
top-level items. -/
def find_struct_in_items (items : List Syn) (name : String) :
    Option ItemStruct :=
  match items with
  | [] => none
  | .structDecl s :: rest =>
      if s.ident = name then some s else find_struct_in_items rest name
  | _ :: rest => find_struct_in_items rest name

/-- TypeResolver::find_struct_definition: first match across all files. -/
def find_struct_definition (files : List ParsedFile) (name : String) :
    Option ItemStruct :=
  match files with
  | [] => none
  | f :: rest =>
      match find_struct_in_items f.items name with
      | some s => some s
      | none => find_struct_definition rest name

/-- The inner loop of TypeResolver::find_enum_definition. -/
def find_enum_in_items (items : List Syn) (name : String) : Option ItemEnum :=
  match items with
  | [] => none
  | .enumDecl e :: rest =>
      if e.ident = name then some e else find_enum_in_items rest name
  | _ :: rest => find_enum_in_items rest name

/-- TypeResolver::find_enum_definition: first match across all files. -/
def find_enum_definition (files : List ParsedFile) (name : String) :
    Option ItemEnum :=
  match files with
  | [] => none
  | f :: rest =>
      match find_enum_in_items f.items name with
      | some e => some e
      | none => find_enum_definition rest name

/-- The mutable state of TypeResolver: the memo cache and the
currently-resolving guard set.  The parsed files are immutable and passed as
a separate argument. -/
structure ResolverState : Type where
  type_cache : List (String × ResolvedType)
  resolving_stack : List String

/-- TypeResolver::new. -/
def ResolverState.init : ResolverState := ⟨[], []⟩

/-- TypeResolver::resolve_type: cache hit first; then the circular-reference
guard returning an uncached `Generic(CircularRef<name>)` placeholder; then
primitive, struct and enum resolution in that order, each cached; a miss
resolves to none.  The guard set gains the name for the duration of the call
and is restored before returning. -/
def resolve_type (files : List ParsedFile) (st : ResolverState)
    (type_name : String) : Option ResolvedType × ResolverState :=
  match lookup_assoc st.type_cache type_name with
  | some cached => (some cached, st)
  | none =>
      if st.resolving_stack.contains type_name then
        (some ⟨type_name, .genericK ("CircularRef<" ++ type_name ++ ">")⟩, st)
      else
        let st1 : ResolverState :=
          { st with resolving_stack := set_insert st.resolving_stack type_name }
        match parse_primitive_type type_name with
        | some primitive =>
            let resolved : ResolvedType := ⟨type_name, .primitiveK primitive⟩
            let st2 : ResolverState :=
              { st1 with
                  type_cache := insert_assoc st1.type_cache type_name resolved }
            (some resolved,
              { st2 with
                  resolving_stack := set_remove st2.resolving_stack type_name })
        | none =>
            match find_struct_definition files type_name with
            | some struct_def =>
                let resolved := parse_struct_definition struct_def
                let st2 : ResolverState :=
                  { st1 with
                      type_cache :=
                        insert_assoc st1.type_cache type_name resolved }
                (some resolved,
                  { st2 with
                      resolving_stack :=
                        set_remove st2.resolving_stack type_name })
            | none =>
                match find_enum_definition files type_name with
                | some enum_def =>
                    let resolved := parse_enum_definition enum_def
                    let st2 : ResolverState :=
                      { st1 with
                          type_cache :=
                            insert_assoc st1.type_cache type_name resolved }
                    (some resolved,
                      { st2 with
                          resolving_stack :=
                            set_remove st2.resolving_stack type_name })
                | none =>
                    (none,
                      { st1 with
                          resolving_stack :=
                            set_remove st1.resolving_stack type_name })

/-! The schema generator (src/schema_generator.rs). -/

mutual

/-- Schema from src/schema_generator.rs; recursive through `items`, hence an
inductive. -/
inductive Schema : Type where
  | mk (schema_type : Option String)
      (properties : Option (List (String × Property)))
      (required : Option (List String))
      (items : Option Schema)
      (enum_values : Option (List String))
      (reference : Option String)
      (format : Option String)

/-- Property from src/schema_generator.rs. -/
inductive Property : Type where
  | mk (property_type : Option String)
      (reference : Option String)
      (items : Option Schema)
      (format : Option String)

end

def Schema.schema_type : Schema → Option String
  | .mk t _ _ _ _ _ _ => t

def Schema.properties : Schema → Option (List (String × Property))
  | .mk _ p _ _ _ _ _ => p

def Schema.required : Schema → Option (List String)
  | .mk _ _ r _ _ _ _ => r

def Schema.items : Schema → Option Schema
  | .mk _ _ _ i _ _ _ => i

def Schema.enum_values : Schema → Option (List String)
  | .mk _ _ _ _ e _ _ => e

def Schema.reference : Schema → Option String
  | .mk _ _ _ _ _ r _ => r

def Schema.format : Schema → Option String
  | .mk _ _ _ _ _ _ f => f

def Property.property_type : Property → Option String
  | .mk t _ _ _ => t

def Property.reference : Property → Option String
  | .mk _ r _ _ => r

/-- SchemaGenerator::primitive_to_schema: the fixed primitive mapping. -/
def primitive_to_schema (primitive : PrimitiveType) : Schema :=
  let tf : String × Option String :=
    match primitive with
    | .string => ("string", none)
    | .i8 | .i16 | .i32 => ("integer", some "int32")
    | .i64 | .i128 => ("integer", some "int64")
    | .u8 | .u16 | .u32 => ("integer", some "int32")
    | .u64 | .u128 => ("integer", some "int64")
    | .f32 => ("number", some "float")
    | .f64 => ("number", some "double")
    | .bool => ("boolean", none)
    | .char => ("string", none)
  .mk (some tf.1) none none none none none tf.2

/-- The schema node `\x7b "$ref": "#/components/schemas/<name>" \x7d`. -/
def ref_schema (name : String) : Schema :=
  .mk none none none none none (some ("#/components/schemas/" ++ name)) none

/-- The empty-object fallback schema. -/
def object_schema : Schema :=
  .mk (some "object") none none none none none none

/-- The mutable state of SchemaGenerator: the owned TypeResolver state and
the schema catalog.  The catalog is a `HashMap<String, Schema>` in the
source; the association list records key/value content together with
first-insertion order (which the real `HashMap` does not maintain — see
claim C2). -/
structure GenState : Type where
  resolver : ResolverState
  schemas : List (String × Schema)

/-- SchemaGenerator::new. -/
def GenState.init : GenState := ⟨ResolverState.init, []⟩

/-- SchemaGenerator::generate_enum_schema: resolve, and if the result is an
enum insert its `\x7btype: string, enum: variants\x7d` schema under the type
name unless one is already present. -/
def generate_enum_schema (files : List ParsedFile) (st : GenState)
    (type_name : String) : GenState :=
  if contains_key st.schemas type_name then st
  else
    let rr := resolve_type files st.resolver type_name
    let st : GenState := { st with resolver := rr.2 }
    match rr.1 with
    | some ⟨_, .enumK enum_def⟩ =>
        let schema : Schema :=
          .mk (some "string") none none none (some enum_def.variants) none none
        { st with schemas := insert_assoc st.schemas type_name schema }
    | _ => st

mutual

/-- SchemaGenerator::generate_schema, with an explicit fuel parameter: the
source function is not structurally recursive (and, as claim C3 shows, does
not terminate on self-referential struct types), so every nested call burns
one unit of fuel and exhausted fuel returns none. -/
def generate_schema (fuel : Nat) (files : List ParsedFile) (st : GenState)
    (type_info : TypeInfo) : Option (Schema × GenState) :=
  match fuel with
  | 0 => none
  | fuel + 1 =>
      match (if type_info.is_option then type_info.generic_args.head?
        else none) with
      | some inner => generate_schema fuel files st inner
      | none =>
          match (if type_info.is_vec then type_info.generic_args.head?
            else none) with
          | some inner =>
              match generate_schema fuel files st inner with
              | none => none
              | some (items_schema, st') =>
                  some (.mk (some "array") none none (some items_schema)
                    none none none, st')
          | none =>
              let rr := resolve_type files st.resolver type_info.name
              let st : GenState := { st with resolver := rr.2 }
              match rr.1 with
              | some ⟨_, .primitiveK prim⟩ =>
                  some (primitive_to_schema prim, st)
              | some ⟨_, .structK _⟩ =>
                  match generate_struct_schema fuel files st type_info.name with
                  | none => none
                  | some st' => some (ref_schema type_info.name, st')
              | some ⟨_, .enumK _⟩ =>
                  some (ref_schema type_info.name,
                    generate_enum_schema files st type_info.name)
              | some ⟨_, .genericK _⟩ => some (object_schema, st)
              | none => some (object_schema, st)

/-- SchemaGenerator::generate_struct_schema (fueled): resolve the name and,
if it is a struct, generate every non-skipped field's property, collect the
required names, and only then insert the object schema into the catalog. -/
def generate_struct_schema (fuel : Nat) (files : List ParsedFile)
    (st : GenState) (type_name : String) : Option GenState :=
  match fuel with
  | 0 => none
  | fuel + 1 =>
      if contains_key st.schemas type_name then some st
      else
        let rr := resolve_type files st.resolver type_name
        let st : GenState := { st with resolver := rr.2 }
        match rr.1 with
        | none => some st
        | some resolved =>
            match resolved.kind with
            | .structK struct_def =>
                match struct_fields_fold fuel files st struct_def.fields with
                | none => none
                | some (properties, required, st') =>
                    let schema : Schema :=
                      .mk (some "object") (some properties)
                        (if required.isEmpty then none else some required)
                        none none none none
                    some { st' with
                             schemas :=
                               insert_assoc st'.schemas type_name schema }
            | _ => some st

/-- The field loop of generate_struct_schema: skip `serde(skip)` fields, use
the renamed name when present, generate the property, and append the exposed
name to `required` exactly when the field is not optional. -/
def struct_fields_fold (fuel : Nat) (files : List ParsedFile) (st : GenState)
    (fields : List FieldDef) :
    Option (List (String × Property) × List String × GenState) :=
  match fuel with
  | 0 => none
  | fuel + 1 =>
      match fields with
      | [] => some ([], [], st)
      | field :: rest =>
          if field.serde_attrs.skip then struct_fields_fold fuel files st rest
          else
            let field_name := field.serde_attrs.rename.getD field.name
            match type_info_to_property fuel files st field.type_info with
            | none => none
            | some (property, st1) =>
                match struct_fields_fold fuel files st1 rest with
                | none => none
                | some (props, req, st2) =>
                    some ((field_name, property) :: props,
                      (if !field.optional && !field.type_info.is_option then
                        field_name :: req
                      else req), st2)

/-- SchemaGenerator::type_info_to_property (fueled). -/
def type_info_to_property (fuel : Nat) (files : List ParsedFile)
    (st : GenState) (type_info : TypeInfo) : Option (Property × GenState) :=
  match fuel with
  | 0 => none
  | fuel + 1 =>
      match (if type_info.is_option then type_info.generic_args.head?
        else none) with
      | some inner => type_info_to_property fuel files st inner
      | none =>
          match (if type_info.is_vec then type_info.generic_args.head?
            else none) with
          | some inner =>
              match generate_schema fuel files st inner with
              | none => none
              | some (items_schema, st') =>
                  some (.mk (some "array") none (some items_schema) none, st')
          | none =>
              let rr := resolve_type files st.resolver type_info.name
              let st : GenState := { st with resolver := rr.2 }
              match rr.1 with
              | some ⟨_, .primitiveK prim⟩ =>
                  let schema := primitive_to_schema prim
                  some (.mk schema.schema_type none none schema.format, st)
              | some ⟨_, .structK _⟩ =>
                  match generate_struct_schema fuel files st type_info.name with
                  | none => none
                  | some st' =>
                      some (.mk none
                        (some ("#/components/schemas/" ++ type_info.name))
                        none none, st')
              | some ⟨_, .enumK _⟩ =>
                  some (.mk none
                    (some ("#/components/schemas/" ++ type_info.name))
                    none none,
                    generate_enum_schema files st type_info.name)
              | some ⟨_, .genericK _⟩ =>
                  some (.mk (some "object") none none none, st)
              | none => some (.mk (some "object") none none none, st)

end

/-! The TypeDescriptor invariant of the spec (claim C9), as a decidable
predicate on TypeInfo values. -/

mutual

/-- TypeInfo.wf: `is_option` and `is_vec` are mutually exclusive; an Option
or Vec node has exactly one generic argument; a bare node (no wrapper flag,
not generic) has no generic arguments; recursively for all arguments. -/
def TypeInfo.wf : TypeInfo → Bool
  | .mk _ g args o v =>
      (!(o && v)) &&
      (if o || v then args.length = 1 else true) &&
      (if !o && !v && !g then args.isEmpty else true) &&
      TypeInfo.wf_list args
termination_by t => sizeOf t
decreasing_by all_goals (simp_wf <;> omega)

/-- Conjunction of TypeInfo.wf over a list. -/
def TypeInfo.wf_list : List TypeInfo → Bool
  | [] => true
  | t :: rest => TypeInfo.wf t && TypeInfo.wf_list rest
termination_by l => sizeOf l
decreasing_by all_goals (simp_wf <;> omega)

end

/-! Spec-side characterisation of the detector (claim C7): which idents
of an import tree the source actually compares against the framework
names. -/

mutual

/-- A use tree mentions `fw` when some `UseTree::Path` segment ident along
any chain, some terminal `UseTree::Name` ident, or the original ident of a
`UseTree::Rename`, equals `fw`; glob imports mention nothing. -/
def tree_mentions (fw : String) (tree : UseTree) : Bool :=
  match tree with
  | .path ident rest => ident = fw || tree_mentions fw rest
  | .name ident => ident = fw
  | .rename ident _ => ident = fw
  | .glob => false
  | .group items => trees_mention fw items
termination_by sizeOf tree
decreasing_by all_goals (simp_wf <;> omega)

/-- Disjunction of tree_mentions over a group's items. -/
def trees_mention (fw : String) (items : List UseTree) : Bool :=
  match items with
  | [] => false
  | t :: rest => tree_mentions fw t || trees_mention fw rest
termination_by sizeOf items
decreasing_by all_goals (simp_wf <;> omega)

end

/-- The root segment of an import path, for stating claim C7: the first
ident of the use tree, when there is one. -/
def use_root_ident : UseTree → Option String
  | .path ident _ => some ident
  | .name ident => some ident
  | .rename ident _ => some ident
  | .glob => none
  | .group _ => none

/-! Concrete syntax-tree inputs used by the counterexamples and witnesses. -/

/-- The type `u32`. -/
def u32_ty : Ty := .path [.mk "u32" .noArgs]

/-- The type `String`. -/
def string_ty : Ty := .path [.mk "String" .noArgs]

/-- The type `User`. -/
def user_ty : Ty := .path [.mk "User" .noArgs]

/-- The type `Json<t>`. -/
def mk_json_ty (t : Ty) : Ty := .path [.mk "Json" (.angle [.tyArg t])]

/-- The type `Result<a, b>`. -/
def mk_result_ty (a b : Ty) : Ty :=
  .path [.mk "Result" (.angle [.tyArg a, .tyArg b])]

/-- The type `Option<t>`. -/
def mk_option_ty (t : Ty) : Ty := .path [.mk "Option" (.angle [.tyArg t])]

/-- The type `Vec<t>`. -/
def mk_vec_ty (t : Ty) : Ty := .path [.mk "Vec" (.angle [.tyArg t])]

/-- The extractor type `Path<t>`. -/
def mk_path_extractor_ty (t : Ty) : Ty :=
  .path [.mk "Path" (.angle [.tyArg t])]

/-- The extractor type `Query<t>`. -/
def mk_query_extractor_ty (t : Ty) : Ty :=
  .path [.mk "Query" (.angle [.tyArg t])]

/-- The expression `Router::new()`. -/
def router_new : Syn := .call (.pathExpr ["Router", "new"]) []

/-- An attribute-routing method attribute such as `#[get("/path")]`: the
rendered meta tokens are the quoted path literal. -/
def get_attr (p : String) : Attr := ⟨["get"], .list ("\"" ++ p ++ "\"")⟩

/-- C1, chained-builder side: the file
`async fn h() \x7b\x7d  fn app() \x7b Router::new().nest("/api",
Router::new().route("/users", get(h))) \x7d`. -/
def c1_axum_file : ParsedFile :=
  ⟨[.fnDecl [] ⟨"h", [], none⟩ [],
    .fnDecl [] ⟨"app", [], none⟩
      [.methodCall router_new "nest"
        [.litStr "/api",
         .methodCall router_new "route"
           [.litStr "/users", .call (.pathExpr ["get"]) [.pathExpr ["h"]]]]]]⟩

/-- C1, attribute-routing side: a `#[get("/profile")]` function declared
lexically inside the receiver of `.scope("/v1").scope("/api")`, so both
scope prefixes are in effect when the route attribute is visited. -/
def c1_actix_file : ParsedFile :=
  ⟨[.fnDecl [] ⟨"config", [], none⟩
      [.methodCall
        (.methodCall
          (.blockExpr [.fnDecl [get_attr "/profile"] ⟨"get_profile", [], none⟩ []])
          "scope" [.litStr "/v1"])
        "scope" [.litStr "/api"]]]⟩

/-- C4, chained-builder side: `async fn get_user() -> Result<Json<User>,
String>` routed via `Router::new().route("/user", get(get_user))`. -/
def c4_axum_file : ParsedFile :=
  ⟨[.fnDecl [] ⟨"get_user", [], some (mk_result_ty (mk_json_ty user_ty) string_ty)⟩ [],
    .fnDecl [] ⟨"app", [], none⟩
      [.methodCall router_new "route"
        [.litStr "/user", .call (.pathExpr ["get"]) [.pathExpr ["get_user"]]]]]⟩

/-- C4, attribute-routing side: `#[get("/u")] async fn get_user() ->
Result<Json<User>, String>`. -/
def c4_actix_file : ParsedFile :=
  ⟨[.fnDecl [get_attr "/u"]
      ⟨"get_user", [], some (mk_result_ty (mk_json_ty user_ty) string_ty)⟩ []]⟩

/-- C7: the import `use mylib::axum::Thing;`, whose root segment is not a
framework name. -/
def c7_use_tree : UseTree := .path "mylib" (.path "axum" (.name "Thing"))

/-- C7: a file holding only that import. -/
def c7_file : ParsedFile := ⟨[.useDecl c7_use_tree]⟩

/-- C10: `fn app() \x7b Router::new().get("/x", <closure>) \x7d` — the
handler argument is not a plain identifier path. -/
def c10_axum_file : ParsedFile :=
  ⟨[.fnDecl [] ⟨"app", [], none⟩
      [.methodCall router_new "get" [.litStr "/x", .otherExpr []]]]⟩

/-- C2: `struct User \x7b id: u32, profile: Profile \x7d` and
`struct Profile \x7b bio: String \x7d`. -/
def c2_files : List ParsedFile :=
  [⟨[.structDecl ⟨"User", .named
      [⟨some "id", [], u32_ty⟩, ⟨some "profile", [], .path [.mk "Profile" .noArgs]⟩]⟩,
     .structDecl ⟨"Profile", .named [⟨some "bio", [], string_ty⟩]⟩]⟩]

/-- C3: the self-referential record `struct Node \x7b children: Vec<Node>
\x7d` (a legal Rust type: the Vec provides the indirection). -/
def c3_files : List ParsedFile :=
  [⟨[.structDecl ⟨"Node", .named
      [⟨some "children", [], mk_vec_ty (.path [.mk "Node" .noArgs])⟩]⟩]⟩]

/-- C3: the TypeInfo the resolver extracts for the `children` field. -/
def c3_vec_ti : TypeInfo := TypeInfo.vec (TypeInfo.new "Node")

/-- C3: the FieldDef list of the resolved `Node` struct. -/
def c3_fields : List FieldDef :=
  [⟨"children", c3_vec_ti, false, ⟨none, false, false⟩⟩]

/-- C3: the generator state just after `Node` has been resolved and cached,
which is the state in effect at every re-entry of generate_struct_schema
during the divergence. -/
def c3_state : GenState :=
  ⟨⟨[("Node", ⟨"Node", .structK ⟨c3_fields⟩⟩)], []⟩, []⟩

/-- C5 witness input: a resolver state whose guard set already holds `Node`
(as it does while `Node` is being resolved). -/
def c5_state : ResolverState := ⟨[], ["Node"]⟩

/-- C6/C5 witness input: `struct User \x7b id: u32, email: Option<String>,
password: String #[serde(skip)], name: String #[serde(rename = "userName")]
\x7d`. -/
def c6_item : ItemStruct :=
  ⟨"User", .named
    [⟨some "id", [], u32_ty⟩,
     ⟨some "email", [], mk_option_ty string_ty⟩,
     ⟨some "password", [⟨["serde"], .list "skip"⟩], string_ty⟩,
     ⟨some "name", [⟨["serde"], .list "rename = \"userName\""⟩], string_ty⟩]⟩

/-- C6 witness input: a file declaring that struct. -/
def c6_files : List ParsedFile := [⟨[.structDecl c6_item]⟩]

/-- C8 witness input: the signature `async fn get_user(Path(id): Path<u32>,
Query(q): Query<Pagination>)`. -/
def c8_sig : Signature :=
  ⟨"get_user",
   [.typed (mk_path_extractor_ty u32_ty),
    .typed (mk_query_extractor_ty (.path [.mk "Pagination" .noArgs]))],
   none⟩

/-- C8 witness input: the function table holding that signature. -/
def c8_fns : List (String × Signature) := [("get_user", c8_sig)]

/-- C8 witness input: the route discovered for `/users/:id` before the
second pass. -/
def c8_route : RouteInfo :=
  { RouteInfo.new "/users/:id" .get "get_user" with
      parameters := axum_extract_path_parameters "/users/:id" }

end OpenapiFromSource

namespace OpenapiFromSource

/-! Helper lemmas. -/

theorem head?_dropWhile_ne {α : Type} (p : α → Bool) :
    ∀ (l : List α) {a : α}, ((l.dropWhile p).head? = some a) → p a = false := by
  intro l
  induction l with
  | nil => intro a h; simp [List.dropWhile] at h
  | cons x xs ih =>
      intro a h
      by_cases hx : p x
      · rw [List.dropWhile_cons_of_pos hx] at h
        exact ih h
      · rw [List.dropWhile_cons_of_neg hx] at h
        simp at h
        subst h
        simpa using hx

theorem data_mk (l : List Char) : (String.mk l).data = l := rfl

theorem data_append_all (a b : String) : (a ++ b).data = a.data ++ b.data := by
  cases a; cases b; rfl

/-- C1, corrected: the chained-builder extractor emits the nested route
without the `/api` nest prefix, refuting the claimed `/api/users`. -/
theorem claim_C1_counterexample :
    axum_extract_routes [c1_axum_file] =
      [⟨"/users", .get, "h", [], none, none⟩] ∧
    ("/users" : String) ≠ "/api/users" := by
  constructor
  · simp [axum_extract_routes, AxumState.init, axum_visit_list, axum_visit,
      c1_axum_file, router_new, is_router_method,
      parse_single_method, parse_route_method, parse_shorthand_method,
      parse_nest_method, extract_string_literal, combine_paths,
      axum_extract_path_parameters, split_str, split_char, starts_with_char,
      parse_http_method, to_lower_str, lower_char, extract_handler_name,
      extract_handler_name_from_expr, insert_assoc, lookup_assoc,
      axum_analyze_handlers, axum_analyze_one, parse_extractors,
      parse_response_type, RouteInfo.new, trim_end_slashes, trim_start_slashes]
  · decide

/-- C1, amended: combine_paths joins with exactly one slash between the
trimmed parts; scope prefixes do apply (LIFO) to attribute routes on
functions lexically nested inside `.scope` calls; but the axum nest prefix
is never propagated, so the nested `/users` route keeps path `/users`. -/
theorem claim_C1_amended :
    ∀ (pfx path : String), pfx ≠ "" → trim_start_slashes path ≠ "" →
      ((combine_paths pfx path).data =
          (trim_end_slashes pfx).data ++ '/' :: (trim_start_slashes path).data ∧
        (∀ c, (trim_end_slashes pfx).data.getLast? = some c → c ≠ '/') ∧
        (∀ c, (trim_start_slashes path).data.head? = some c → c ≠ '/')) ∧
      actix_extract_routes [c1_actix_file] =
        [⟨"/api/v1/profile", .get, "get_profile", [], none, none⟩] ∧
      (axum_extract_routes [c1_axum_file]).map RouteInfo.path = ["/users"] := by
  intro pfx path h1 h2
  refine ⟨⟨?_, ?_, ?_⟩, ?_, ?_⟩
  · rw [combine_paths]
    simp only [h1, if_false, h2]
    rw [data_append_all, data_append_all]
    simp
  · intro c hc
    rw [trim_end_slashes, data_mk, List.getLast?_reverse] at hc
    have := head?_dropWhile_ne _ _ hc
    simpa using this
  · intro c hc
    rw [trim_start_slashes] at hc
    rw [data_mk] at hc
    have := head?_dropWhile_ne _ _ hc
    simpa using this
  · simp [actix_extract_routes, ActixState.init, actix_visit_list, actix_visit,
      c1_actix_file, get_attr, extract_scope_path, extract_string_literal,
      find_route_macros, parse_route_macro, extract_path_from_tokens,
      trim_ws, trim_quotes, parse_http_method, to_lower_str, lower_char,
      combine_paths, trim_end_slashes, trim_start_slashes,
      actix_extract_path_parameters, split_str, split_char, starts_with_char,
      ends_with_char, insert_assoc, lookup_assoc, actix_analyze_handlers,
      actix_analyze_one, parse_extractors, RouteInfo.new]
  · simp [axum_extract_routes, AxumState.init, axum_visit_list, axum_visit,
      c1_axum_file, router_new, is_router_method,
      parse_single_method, parse_route_method, parse_shorthand_method,
      parse_nest_method, extract_string_literal, combine_paths,
      axum_extract_path_parameters, split_str, split_char, starts_with_char,
      parse_http_method, to_lower_str, lower_char, extract_handler_name,
      extract_handler_name_from_expr, insert_assoc, lookup_assoc,
      axum_analyze_handlers, axum_analyze_one, parse_extractors,
      parse_response_type, RouteInfo.new, trim_end_slashes, trim_start_slashes]

theorem claim_C1_amended_witness :
    ("/api" : String) ≠ "" ∧ trim_start_slashes "/users" ≠ "" ∧
    (((combine_paths "/api" "/users").data =
        (trim_end_slashes "/api").data ++ '/' :: (trim_start_slashes "/users").data ∧
      (∀ c, (trim_end_slashes "/api").data.getLast? = some c → c ≠ '/') ∧
      (∀ c, (trim_start_slashes "/users").data.head? = some c → c ≠ '/')) ∧
    actix_extract_routes [c1_actix_file] =
      [⟨"/api/v1/profile", .get, "get_profile", [], none, none⟩] ∧
    (axum_extract_routes [c1_axum_file]).map RouteInfo.path = ["/users"]) :=
  ⟨by decide, by decide, claim_C1_amended "/api" "/users" (by decide) (by decide)⟩

/-- An expression that is not a plain identifier path yields handler name
`unknown`. -/
theorem handler_name_unknown (e : Syn) (h : ∀ segs, e ≠ .pathExpr segs) :
    extract_handler_name_from_expr e = "unknown" := by
  cases e <;> simp [extract_handler_name_from_expr]
  exact absurd rfl (h _)

/-- C4, corrected: the attribute-routing second pass never fills in the
response type; the `Result<Json<User>, String>` handler's route keeps
`response_type = none` instead of the claimed `User` descriptor. -/
theorem claim_C4_counterexample :
    actix_extract_routes [c4_actix_file] =
      [⟨"/u", .get, "get_user", [], none, none⟩] ∧
    (none : Option TypeInfo) ≠ some (TypeInfo.new "User") := by
  constructor
  · simp [actix_extract_routes, ActixState.init, actix_visit_list, actix_visit,
      c4_actix_file, get_attr, extract_scope_path, extract_string_literal,
      find_route_macros, parse_route_macro, extract_path_from_tokens,
      trim_ws, trim_quotes, parse_http_method, to_lower_str, lower_char,
      combine_paths, trim_end_slashes, trim_start_slashes,
      actix_extract_path_parameters, split_str, split_char, starts_with_char,
      ends_with_char, insert_assoc, lookup_assoc, actix_analyze_handlers,
      actix_analyze_one, parse_extractors, parse_extractor_type,
      RouteInfo.new, mk_result_ty, mk_json_ty, user_ty, string_ty,
      first_type_arg, PathSeg.ident, PathSeg.arguments]
  · simp

/-- C4, amended: the chained-builder extractor parses the return type by the
claimed unwrapping rules (Result to its Ok type recursively, Json to its
inner type, references to their referent, impl Trait to nothing, tuples by
scanning for a Json element), and yields `User` for
`Result<Json<User>, String>`; the attribute-routing extractor leaves the
response type unset. -/
theorem claim_C4_amended :
    (∀ a b : Ty, parse_return_type (mk_result_ty a b) = parse_return_type a) ∧
    (∀ t : Ty, parse_return_type (mk_json_ty t) = some (extract_type_info t)) ∧
    parse_return_type .implTrait = none ∧
    (∀ t : Ty, parse_return_type (.reference t) = some (extract_type_info t)) ∧
    (∀ elems : List Ty,
      parse_return_type (.tuple elems) = find_json_in_elems elems) ∧
    axum_extract_routes [c4_axum_file] =
      [⟨"/user", .get, "get_user", [], none, some (TypeInfo.new "User")⟩] ∧
    actix_extract_routes [c4_actix_file] =
      [⟨"/u", .get, "get_user", [], none, none⟩] := by
  refine ⟨?_, ?_, ?_, ?_, ?_, ?_, ?_⟩
  · intro a b
    simp [parse_return_type, mk_result_ty, first_type_arg, PathSeg.ident,
      PathSeg.arguments]
  · intro t
    simp [parse_return_type, mk_json_ty, first_type_arg, PathSeg.ident,
      PathSeg.arguments]
  · simp [parse_return_type]
  · intro t
    simp [parse_return_type]
  · intro elems
    simp [parse_return_type]
  · simp [axum_extract_routes, AxumState.init, axum_visit_list, axum_visit,
      c4_axum_file, router_new, is_router_method,
      parse_single_method, parse_route_method, parse_shorthand_method,
      parse_nest_method, extract_string_literal, combine_paths,
      axum_extract_path_parameters, split_str, split_char, starts_with_char,
      parse_http_method, to_lower_str, lower_char, extract_handler_name,
      extract_handler_name_from_expr, insert_assoc, lookup_assoc,
      axum_analyze_handlers, axum_analyze_one, parse_extractors,
      parse_extractor_type, parse_response_type, parse_return_type,
      extract_type_info, RouteInfo.new, trim_end_slashes, trim_start_slashes,
      mk_result_ty, mk_json_ty, user_ty, string_ty,
      first_type_arg, PathSeg.ident, PathSeg.arguments]
  · simp [actix_extract_routes, ActixState.init, actix_visit_list, actix_visit,
      c4_actix_file, get_attr, extract_scope_path, extract_string_literal,
      find_route_macros, parse_route_macro, extract_path_from_tokens,
      trim_ws, trim_quotes, parse_http_method, to_lower_str, lower_char,
      combine_paths, trim_end_slashes, trim_start_slashes,
      actix_extract_path_parameters, split_str, split_char, starts_with_char,
      ends_with_char, insert_assoc, lookup_assoc, actix_analyze_handlers,
      actix_analyze_one, parse_extractors, parse_extractor_type,
      RouteInfo.new, mk_result_ty, mk_json_ty, user_ty, string_ty,
      first_type_arg, PathSeg.ident, PathSeg.arguments]

/-- C10, confirmed: a chained-builder route whose handler argument is not a
plain identifier path is still emitted, with handler name `unknown`, and the
second pass leaves such a route unchanged when no signature named `unknown`
exists. -/
theorem claim_C10_theorem :
    (∀ e : Syn, (∀ segs, e ≠ .pathExpr segs) →
      extract_handler_name_from_expr e = "unknown") ∧
    (∀ (p m : String) (e : Syn) (pfx : String) (meth : HttpMethod)
        (rest : List Syn),
      parse_http_method m = some meth → (∀ segs, e ≠ .pathExpr segs) →
      parse_shorthand_method (.litStr p :: e :: rest) pfx m =
        some { RouteInfo.new (combine_paths pfx p) meth "unknown" with
                 parameters :=
                   axum_extract_path_parameters (combine_paths pfx p) }) ∧
    (∀ (fns : List (String × Signature)) (r : RouteInfo),
      r.handler_name = "unknown" → lookup_assoc fns "unknown" = none →
      axum_analyze_one fns r = r) ∧
    axum_extract_routes [c10_axum_file] =
      [⟨"/x", .get, "unknown", [], none, none⟩] := by
  refine ⟨handler_name_unknown, ?_, ?_, ?_⟩
  · intro p m e pfx meth rest hm he
    simp [parse_shorthand_method, hm, extract_string_literal,
      handler_name_unknown e he]
  · intro fns r hname hlook
    rw [axum_analyze_one, hname, hlook]
  · simp [axum_extract_routes, AxumState.init, axum_visit_list, axum_visit,
      c10_axum_file, router_new, is_router_method,
      parse_single_method, parse_route_method, parse_shorthand_method,
      parse_nest_method, extract_string_literal, combine_paths,
      axum_extract_path_parameters, split_str, split_char, starts_with_char,
      parse_http_method, to_lower_str, lower_char, extract_handler_name,
      extract_handler_name_from_expr, insert_assoc, lookup_assoc,
      axum_analyze_handlers, axum_analyze_one, parse_extractors,
      parse_response_type, RouteInfo.new, trim_end_slashes, trim_start_slashes]

theorem claim_C10_witness :
    extract_handler_name_from_expr (.otherExpr []) = "unknown" ∧
    parse_shorthand_method [.litStr "/x", .otherExpr []] "" "get" =
      some { RouteInfo.new (combine_paths "" "/x") .get "unknown" with
               parameters :=
                 axum_extract_path_parameters (combine_paths "" "/x") } ∧
    axum_analyze_one [] (RouteInfo.new "/x" .get "unknown") =
      RouteInfo.new "/x" .get "unknown" ∧
    axum_extract_routes [c10_axum_file] =
      [⟨"/x", .get, "unknown", [], none, none⟩] :=
  ⟨claim_C10_theorem.1 (.otherExpr []) (fun _ h => Syn.noConfusion h),
   claim_C10_theorem.2.1 "/x" "get" (.otherExpr []) "" .get []
     (by decide) (fun _ h => Syn.noConfusion h),
   claim_C10_theorem.2.2.1 [] (RouteInfo.new "/x" .get "unknown") rfl rfl,
   claim_C10_theorem.2.2.2⟩

/-- Joint characterisation of check_use_tree and check_use_tree_list against
tree_mentions, by strong induction on size. -/
theorem check_use_tree_spec_aux : ∀ n : Nat,
    (∀ (tree : UseTree) (d : DetectedSet), sizeOf tree < n →
      check_use_tree tree d =
        ⟨d.axum || tree_mentions "axum" tree,
         d.actix_web || tree_mentions "actix_web" tree⟩) ∧
    (∀ (items : List UseTree) (d : DetectedSet), sizeOf items < n →
      check_use_tree_list items d =
        ⟨d.axum || trees_mention "axum" items,
         d.actix_web || trees_mention "actix_web" items⟩) := by
  intro n
  induction n with
  | zero =>
      constructor
      · intro tree d h; omega
      · intro items d h; omega
  | succ n ih =>
      obtain ⟨ih1, ih2⟩ := ih
      constructor
      · intro tree d h
        cases tree with
        | path ident rest =>
            rw [check_use_tree]
            have hr : sizeOf rest < n := by simp at h; omega
            by_cases hA : ident = "axum" <;> by_cases hB : ident = "actix_web" <;>
              simp [hA, hB, detected_insert, ih1 rest _ hr, tree_mentions]
        | name ident =>
            by_cases hA : ident = "axum" <;> by_cases hB : ident = "actix_web" <;>
              simp [check_use_tree, hA, hB, detected_insert, tree_mentions]
        | rename ident asIdent =>
            by_cases hA : ident = "axum" <;> by_cases hB : ident = "actix_web" <;>
              simp [check_use_tree, hA, hB, detected_insert, tree_mentions]
        | glob => simp [check_use_tree, tree_mentions]
        | group items =>
            have hr : sizeOf items < n := by simp at h; omega
            rw [check_use_tree]
            rw [ih2 items d hr]
            simp [tree_mentions]
      · intro items d h
        cases items with
        | nil => simp [check_use_tree_list, trees_mention]
        | cons t rest =>
            have h1 : sizeOf t < n := by simp at h; omega
            have h2 : sizeOf rest < n := by simp at h; omega
            rw [check_use_tree_list]
            rw [ih1 t d h1, ih2 rest _ h2]
            simp [trees_mention, Bool.or_assoc]

/-- C7, corrected: `use mylib::axum::Thing` has root segment `mylib`, which
is no framework identifier, yet the detector adds Axum — refuting the
claimed root-segment-only matching. -/
theorem claim_C7_counterexample :
    detect [c7_file] = ⟨true, false⟩ ∧
    use_root_ident c7_use_tree = some "mylib" ∧
    ("mylib" : String) ≠ "axum" ∧ ("mylib" : String) ≠ "actix_web" := by
  refine ⟨?_, by simp [use_root_ident, c7_use_tree], by decide, by decide⟩
  simp [detect, c7_file, c7_use_tree, check_use_tree, detected_insert]

/-- C7, amended: the detector adds a framework exactly when some segment of
the imported path (any path-chain ident, terminal name, or original rename
ident; glob imports never) matches that framework's identifier, across all
`use` items of all trees, with set semantics: repeated checks of the
same import change nothing. -/
theorem claim_C7_amended :
    (∀ (tree : UseTree) (d : DetectedSet),
      check_use_tree tree d =
        ⟨d.axum || tree_mentions "axum" tree,
         d.actix_web || tree_mentions "actix_web" tree⟩) ∧
    (∀ files : List ParsedFile,
      detect files =
        ⟨files.any (fun pf => pf.items.any (fun item =>
            match item with
            | .useDecl t => tree_mentions "axum" t
            | _ => false)),
         files.any (fun pf => pf.items.any (fun item =>
            match item with
            | .useDecl t => tree_mentions "actix_web" t
            | _ => false))⟩) ∧
    (∀ (tree : UseTree) (d : DetectedSet),
      check_use_tree tree (check_use_tree tree d) = check_use_tree tree d) := by
  have key := fun tree d =>
    (check_use_tree_spec_aux (sizeOf tree + 1)).1 tree d (by omega)
  refine ⟨key, ?_, ?_⟩
  · intro files
    have item_step : ∀ (items : List Syn) (acc : DetectedSet),
        items.foldl (fun acc item =>
            match item with
            | .useDecl tree => check_use_tree tree acc
            | _ => acc) acc =
          ⟨acc.axum || items.any (fun item =>
              match item with
              | .useDecl t => tree_mentions "axum" t
              | _ => false),
           acc.actix_web || items.any (fun item =>
              match item with
              | .useDecl t => tree_mentions "actix_web" t
              | _ => false)⟩ := by
      intro items
      induction items with
      | nil => intro acc; simp
      | cons i rest ih =>
          intro acc
          cases i with
          | useDecl t =>
              simp only [List.foldl_cons, List.any_cons]
              rw [ih (check_use_tree t acc), key t acc]
              simp [Bool.or_assoc]
          | fnDecl a s b => simpa using ih acc
          | structDecl s => simpa using ih acc
          | enumDecl e => simpa using ih acc
          | otherItem => simpa using ih acc
          | methodCall r m a => simpa using ih acc
          | call f a => simpa using ih acc
          | pathExpr s => simpa using ih acc
          | litStr s => simpa using ih acc
          | litOther => simpa using ih acc
          | blockExpr s => simpa using ih acc
          | otherExpr c => simpa using ih acc
    have file_step : ∀ (files : List ParsedFile) (acc : DetectedSet),
        files.foldl (fun acc pf =>
            pf.items.foldl (fun acc item =>
              match item with
              | .useDecl tree => check_use_tree tree acc
              | _ => acc) acc) acc =
          ⟨acc.axum || files.any (fun pf => pf.items.any (fun item =>
              match item with
              | .useDecl t => tree_mentions "axum" t
              | _ => false)),
           acc.actix_web || files.any (fun pf => pf.items.any (fun item =>
              match item with
              | .useDecl t => tree_mentions "actix_web" t
              | _ => false))⟩ := by
      intro files
      induction files with
      | nil => intro acc; simp
      | cons pf rest ih =>
          intro acc
          simp only [List.foldl_cons, List.any_cons]
          rw [item_step pf.items acc, ih]
          simp [Bool.or_assoc]
    rw [detect, file_step]
    simp
  · intro tree d
    rw [key, key]
    simp [Bool.or_assoc]

/-- Every parameter the Axum extractor derives from literal path segments is
a required path parameter of placeholder type `String`. -/
theorem axum_path_params_spec :
    ∀ (path : String) (p : Parameter), p ∈ axum_extract_path_parameters path →
      p.location = .path ∧ p.type_info = TypeInfo.new "String" ∧
        p.required = true := by
  intro path p hp
  rw [axum_extract_path_parameters] at hp
  have aux : ∀ (segs : List String) (acc : List Parameter),
      (∀ q ∈ acc, q.location = ParameterLocation.path ∧
        q.type_info = TypeInfo.new "String" ∧ q.required = true) →
      ∀ q ∈ segs.foldl (fun acc seg =>
          if starts_with_char seg ':' then
            acc ++ [⟨trim_start_colons seg, .path, TypeInfo.new "String", true⟩]
          else acc) acc,
        q.location = ParameterLocation.path ∧
          q.type_info = TypeInfo.new "String" ∧ q.required = true := by
    intro segs
    induction segs with
    | nil => intro acc hacc q hq; exact hacc q hq
    | cons s rest ih =>
        intro acc hacc q hq
        refine ih _ ?_ q hq
        intro q' hq'
        by_cases hs : starts_with_char s ':'
        · simp [hs] at hq'
          rcases hq' with h | h
          · exact hacc q' h
          · subst h; exact ⟨rfl, rfl, rfl⟩
        · simp [hs] at hq'
          exact hacc q' hq'
  exact aux _ [] (by intro q h; simp at h) p hp

/-- Every parameter the Actix extractor derives from literal path segments
is a required path parameter of placeholder type `String`. -/
theorem actix_path_params_spec :
    ∀ (path : String) (p : Parameter), p ∈ actix_extract_path_parameters path →
      p.location = .path ∧ p.type_info = TypeInfo.new "String" ∧
        p.required = true := by
  intro path p hp
  rw [actix_extract_path_parameters] at hp
  have aux : ∀ (segs : List String) (acc : List Parameter),
      (∀ q ∈ acc, q.location = ParameterLocation.path ∧
        q.type_info = TypeInfo.new "String" ∧ q.required = true) →
      ∀ q ∈ segs.foldl (fun acc seg =>
          if starts_with_char seg '{' && ends_with_char seg '}' then
            acc ++ [⟨trim_end_brace (trim_start_brace seg), .path,
                     TypeInfo.new "String", true⟩]
          else acc) acc,
        q.location = ParameterLocation.path ∧
          q.type_info = TypeInfo.new "String" ∧ q.required = true := by
    intro segs
    induction segs with
    | nil => intro acc hacc q hq; exact hacc q hq
    | cons s rest ih =>
        intro acc hacc q hq
        refine ih _ ?_ q hq
        by_cases hs : starts_with_char s '{' && ends_with_char s '}'
        · intro q' hq'
          simp [hs] at hq'
          rcases hq' with h | h
          · exact hacc q' h
          · subst h; exact ⟨rfl, rfl, rfl⟩
        · intro q' hq'
          simp [hs] at hq'
          exact hacc q' hq'
  exact aux _ [] (by intro q h; simp at h) p hp

/-- C8, confirmed: literal-path parameters are always required with the
`String` placeholder type, and the second pass of both extractors appends
the extractor-derived parameters after the path-derived ones, replacing and
deduplicating nothing. -/
theorem claim_C8_theorem :
    (∀ (path : String) (p : Parameter),
      p ∈ axum_extract_path_parameters path →
      p.location = .path ∧ p.type_info = TypeInfo.new "String" ∧
        p.required = true) ∧
    (∀ (path : String) (p : Parameter),
      p ∈ actix_extract_path_parameters path →
      p.location = .path ∧ p.type_info = TypeInfo.new "String" ∧
        p.required = true) ∧
    (∀ (fns : List (String × Signature)) (r : RouteInfo) (sig : Signature),
      lookup_assoc fns r.handler_name = some sig →
      axum_analyze_one fns r =
        { r with parameters := r.parameters ++ (parse_extractors sig).1,
                 request_body := (parse_extractors sig).2,
                 response_type := parse_response_type sig }) ∧
    (∀ (fns : List (String × Signature)) (r : RouteInfo) (sig : Signature),
      lookup_assoc fns r.handler_name = some sig →
      actix_analyze_one fns r =
        { r with parameters := r.parameters ++ (parse_extractors sig).1,
                 request_body := (parse_extractors sig).2 }) := by
  refine ⟨axum_path_params_spec, actix_path_params_spec, ?_, ?_⟩
  · intro fns r sig h
    rw [axum_analyze_one, h]
  · intro fns r sig h
    rw [actix_analyze_one, h]

theorem claim_C8_witness :
    (⟨"id", .path, TypeInfo.new "String", true⟩ : Parameter) ∈
      axum_extract_path_parameters "/users/:id" ∧
    ((⟨"id", .path, TypeInfo.new "String", true⟩ : Parameter).location = .path ∧
      (⟨"id", .path, TypeInfo.new "String", true⟩ : Parameter).type_info =
        TypeInfo.new "String" ∧
      (⟨"id", .path, TypeInfo.new "String", true⟩ : Parameter).required = true) ∧
    lookup_assoc c8_fns c8_route.handler_name = some c8_sig ∧
    axum_analyze_one c8_fns c8_route =
      { c8_route with
          parameters := c8_route.parameters ++ (parse_extractors c8_sig).1,
          request_body := (parse_extractors c8_sig).2,
          response_type := parse_response_type c8_sig } := by
  have hmem : (⟨"id", .path, TypeInfo.new "String", true⟩ : Parameter) ∈
      axum_extract_path_parameters "/users/:id" := by
    simp [axum_extract_path_parameters, split_str, split_char,
      starts_with_char, trim_start_colons]
  have hlook : lookup_assoc c8_fns c8_route.handler_name = some c8_sig := by
    simp [c8_fns, c8_route, RouteInfo.new, lookup_assoc]
  exact ⟨hmem, claim_C8_theorem.1 "/users/:id" _ hmem,
    hlook, claim_C8_theorem.2.2.1 c8_fns c8_route c8_sig hlook⟩

/-- Removing a key just inserted into a set it was absent from restores the
original set. -/
theorem set_remove_insert {s : List String} {k : String}
    (h : s.contains k = false) : set_remove (set_insert s k) k = s := by
  have hk : k ∉ s := by simpa using h
  rw [set_insert, if_neg (by simpa using hk), set_remove, List.filter_cons,
    if_neg (by simp)]
  exact List.filter_eq_self.mpr
    (fun x hx => by simp; exact fun he => hk (he ▸ hx))

/-- C5, confirmed: a name re-requested while in the guard set resolves to the
tagged Generic placeholder with the resolver state (cache included) left
unchanged, and a resolve outside the cycle with a cache miss finds the real
struct declaration, caches it, and restores the guard set. -/
theorem claim_C5_theorem :
    (∀ (files : List ParsedFile) (st : ResolverState) (name : String),
      lookup_assoc st.type_cache name = none →
      st.resolving_stack.contains name = true →
      resolve_type files st name =
        (some ⟨name, .genericK ("CircularRef<" ++ name ++ ">")⟩, st)) ∧
    (∀ (files : List ParsedFile) (st : ResolverState) (name : String)
        (sd : ItemStruct),
      lookup_assoc st.type_cache name = none →
      st.resolving_stack.contains name = false →
      parse_primitive_type name = none →
      find_struct_definition files name = some sd →
      resolve_type files st name =
        (some (parse_struct_definition sd),
         ⟨insert_assoc st.type_cache name (parse_struct_definition sd),
          st.resolving_stack⟩)) := by
  constructor
  · intro files st name h1 h2
    rw [resolve_type, h1, if_pos h2]
  · intro files st name sd h1 h2 h3 h4
    rw [resolve_type, h1, if_neg (by simpa using h2), h3, h4]
    dsimp only
    rw [set_remove_insert h2]

theorem claim_C5_witness :
    lookup_assoc c5_state.type_cache "Node" = none ∧
    c5_state.resolving_stack.contains "Node" = true ∧
    resolve_type [] c5_state "Node" =
      (some ⟨"Node", .genericK ("CircularRef<" ++ "Node" ++ ">")⟩, c5_state) ∧
    find_struct_definition c3_files "Node" =
      some ⟨"Node", .named [⟨some "children", [],
        mk_vec_ty (.path [.mk "Node" .noArgs])⟩]⟩ ∧
    resolve_type c3_files ResolverState.init "Node" =
      (some (parse_struct_definition ⟨"Node", .named [⟨some "children", [],
          mk_vec_ty (.path [.mk "Node" .noArgs])⟩]⟩),
       ⟨insert_assoc ResolverState.init.type_cache "Node"
          (parse_struct_definition ⟨"Node", .named [⟨some "children", [],
            mk_vec_ty (.path [.mk "Node" .noArgs])⟩]⟩),
        ResolverState.init.resolving_stack⟩) := by
  have hfind : find_struct_definition c3_files "Node" =
      some ⟨"Node", .named [⟨some "children", [],
        mk_vec_ty (.path [.mk "Node" .noArgs])⟩]⟩ := by
    simp [find_struct_definition, find_struct_in_items, c3_files]
  refine ⟨rfl, by decide, ?_, hfind, ?_⟩
  · exact claim_C5_theorem.1 [] c5_state "Node" rfl (by decide)
  · exact claim_C5_theorem.2 c3_files ResolverState.init "Node" _ rfl
      (by decide) (by decide) hfind

/-- Fold with optional append equals the accumulator followed by a
filterMap. -/
theorem foldl_opt_append {α β : Type} (pf : α → Option β) :
    ∀ (l : List α) (acc : List β),
      l.foldl (fun acc x =>
        match pf x with
        | some b => acc ++ [b]
        | none => acc) acc = acc ++ l.filterMap pf := by
  intro l
  induction l with
  | nil => intro acc; simp
  | cons x rest ih =>
      intro acc
      cases h : pf x <;> simp [h, ih, List.filterMap_cons]

/-- Fields parsed by the resolver always have `optional` mirroring the
descriptor's is_option flag. -/
theorem fields_optional_eq (its : ItemStruct) :
    ∀ f ∈ parse_struct_fields its, f.optional = f.type_info.is_option := by
  intro f hf
  rw [parse_struct_fields] at hf
  cases hits : its.fields with
  | otherFields => rw [hits] at hf; simp at hf
  | named l =>
      rw [hits] at hf
      have aux : ∀ (fl : List Field) (acc : List FieldDef),
          (∀ g ∈ acc, g.optional = g.type_info.is_option) →
          ∀ g ∈ fl.foldl (fun acc field =>
              match parse_field field with
              | some field_def => acc ++ [field_def]
              | none => acc) acc,
            g.optional = g.type_info.is_option := by
        intro fl
        induction fl with
        | nil => intro acc hacc g hg; exact hacc g hg
        | cons fld rest ih =>
            intro acc hacc g hg
            refine ih _ ?_ g hg
            intro q hq
            dsimp only at hq
            cases hpf : parse_field fld with
            | none =>
                rw [hpf] at hq
                exact hacc q hq
            | some fd =>
                rw [hpf] at hq
                simp at hq
                rcases hq with hq | hq
                · exact hacc q hq
                · subst hq
                  cases hid : fld.ident with
                  | none => rw [parse_field, hid] at hpf; simp at hpf
                  | some nm =>
                      rw [parse_field, hid] at hpf
                      simp at hpf
                      rw [← hpf]
      exact aux l [] (by intro g hg; simp at hg) f hf

/-- The required-list characterisation of the struct-schema field fold. -/
theorem struct_fold_required :
    ∀ (fds : List FieldDef) (fuel : Nat) (files : List ParsedFile)
      (st : GenState) (props : List (String × Property)) (req : List String)
      (st' : GenState),
      (∀ f ∈ fds, f.optional = f.type_info.is_option) →
      struct_fields_fold fuel files st fds = some (props, req, st') →
      req = (fds.filter
          (fun f => !f.serde_attrs.skip && !f.type_info.is_option)).map
        (fun f => f.serde_attrs.rename.getD f.name) := by
  intro fds
  induction fds with
  | nil =>
      intro fuel files st props req st' hopt h
      cases fuel with
      | zero => simp [struct_fields_fold] at h
      | succ n =>
          rw [struct_fields_fold] at h
          simp at h
          simp [h.2.1.symm]
  | cons f rest ih =>
      intro fuel files st props req st' hopt h
      cases fuel with
      | zero => simp [struct_fields_fold] at h
      | succ n =>
          rw [struct_fields_fold] at h
          by_cases hskip : f.serde_attrs.skip
          · rw [if_pos hskip] at h
            have hr := ih n files st props req st'
              (fun g hg => hopt g (List.mem_cons_of_mem f hg)) h
            rw [hr]
            simp [List.filter_cons, hskip]
          · rw [if_neg hskip] at h
            cases htip : type_info_to_property n files st f.type_info with
            | none => rw [htip] at h; simp at h
            | some pr =>
                obtain ⟨prop1, st1⟩ := pr
                rw [htip] at h
                dsimp only at h
                cases hfold : struct_fields_fold n files st1 rest with
                | none => rw [hfold] at h; simp at h
                | some r3 =>
                    obtain ⟨r3props, r3req, r3st⟩ := r3
                    rw [hfold] at h
                    dsimp only at h
                    simp at h
                    have hr := ih n files st1 r3props r3req r3st
                      (fun g hg => hopt g (List.mem_cons_of_mem f hg)) hfold
                    have hopt_f := hopt f (List.mem_cons_self f rest)
                    rw [List.filter_cons]
                    cases hio : f.type_info.is_option with
                    | true =>
                        simp [hskip, hio]
                        rw [← h.2.1]
                        simp [hopt_f, hio, hr]
                    | false =>
                        simp [hskip, hio]
                        rw [← h.2.1]
                        simp [hopt_f, hio, hr]

/-- C6, confirmed: for every struct parsed by the resolver, the required
list collected by the schema generator's field loop is exactly the
non-skipped fields whose descriptor is not Option-wrapped, under their
exposed (possibly renamed) names. -/
theorem claim_C6_theorem :
    ∀ (its : ItemStruct) (fuel : Nat) (files : List ParsedFile)
      (st : GenState) (props : List (String × Property)) (req : List String)
      (st' : GenState),
      struct_fields_fold fuel files st (parse_struct_fields its) =
        some (props, req, st') →
      req = ((parse_struct_fields its).filter
          (fun f => !f.serde_attrs.skip && !f.type_info.is_option)).map
        (fun f => f.serde_attrs.rename.getD f.name) := by
  intro its fuel files st props req st' h
  exact struct_fold_required _ fuel files st props req st'
    (fields_optional_eq its) h

theorem claim_C6_witness :
    (struct_fields_fold 10 c6_files GenState.init
        (parse_struct_fields c6_item)).map (fun r => r.2.1) =
      some ["id", "userName"] ∧
    ((parse_struct_fields c6_item).filter
        (fun f => !f.serde_attrs.skip && !f.type_info.is_option)).map
      (fun f => f.serde_attrs.rename.getD f.name) = ["id", "userName"] := by
  have hpf : parse_struct_fields c6_item =
      [⟨"id", TypeInfo.new "u32", false, ⟨none, false, false⟩⟩,
       ⟨"email", TypeInfo.option (TypeInfo.new "String"), true,
         ⟨none, false, false⟩⟩,
       ⟨"password", TypeInfo.new "String", false, ⟨none, true, false⟩⟩,
       ⟨"name", TypeInfo.new "String", false,
         ⟨some "userName", false, false⟩⟩] := by
    simp [parse_struct_fields, c6_item, parse_field, parse_serde_attributes,
      extract_rename_value, str_find, list_find_sub, List.isPrefixOf,
      contains_substr, resolver_extract_type_info, resolver_extract_from_path,
      resolver_extract_generic, resolver_collect_args, first_type_arg,
      PathSeg.ident, PathSeg.arguments, u32_ty, string_ty, mk_option_ty,
      TypeInfo.new, TypeInfo.option, TypeInfo.is_option]
  have h1 : (struct_fields_fold 10 c6_files GenState.init
      (parse_struct_fields c6_item)).map (fun r => r.2.1) =
        some ["id", "userName"] := by
    rw [hpf]; rfl
  cases hfold : struct_fields_fold 10 c6_files GenState.init
      (parse_struct_fields c6_item) with
  | none => rw [hfold] at h1; simp at h1
  | some r =>
      obtain ⟨props, req, st'⟩ := r
      have hreq : req = ["id", "userName"] := by
        rw [hfold] at h1; simpa using h1
      have h := claim_C6_theorem c6_item 10 c6_files GenState.init props req
        st' hfold
      exact ⟨by simpa using hreq, by rw [← h, hreq]⟩

/-- C2: at a failing input with two record types the catalog receives two
entries with distinct names, so the (unordered, randomised) `HashMap`
iteration order of the real catalog is observable in the output. -/
theorem claim_C2_theorem :
    (generate_schema 20 c2_files GenState.init (TypeInfo.new "User")).map
      (fun r => r.2.schemas.map Prod.fst) = some ["Profile", "User"] ∧
    ("Profile" : String) ≠ "User" := by
  constructor
  · simp [generate_schema, generate_struct_schema, struct_fields_fold,
      type_info_to_property, generate_enum_schema, c2_files, GenState.init,
      ResolverState.init, resolve_type, lookup_assoc, insert_assoc,
      contains_key, set_insert, set_remove, parse_primitive_type,
      find_struct_definition, find_struct_in_items, find_enum_definition,
      find_enum_in_items, parse_struct_definition, parse_struct_fields,
      parse_field, parse_serde_attributes, resolver_extract_type_info,
      resolver_extract_from_path, resolver_extract_generic,
      resolver_collect_args, first_type_arg, PathSeg.ident, PathSeg.arguments,
      u32_ty, string_ty, TypeInfo.new, TypeInfo.vec, TypeInfo.option,
      TypeInfo.name, TypeInfo.is_option, TypeInfo.is_vec,
      TypeInfo.generic_args, primitive_to_schema, ref_schema, object_schema]
  · decide

/-- The divergence cycle of claim C3: with `Node` resolved and cached but not
yet in the schema catalog, generate_struct_schema re-enters itself through
the `children: Vec<Node>` field property with an unchanged state, so no
amount of fuel completes any function of the cycle. -/
theorem c3_cycle_diverges : ∀ n : Nat,
    generate_struct_schema n c3_files c3_state "Node" = none ∧
    struct_fields_fold n c3_files c3_state c3_fields = none ∧
    type_info_to_property n c3_files c3_state c3_vec_ti = none ∧
    generate_schema n c3_files c3_state (TypeInfo.new "Node") = none := by
  intro n
  induction n with
  | zero =>
      exact ⟨by simp [generate_struct_schema], by simp [struct_fields_fold],
        by simp [type_info_to_property], by simp [generate_schema]⟩
  | succ n ih =>
      obtain ⟨ih1, ih2, ih3, ih4⟩ := ih
      refine ⟨?_, ?_, ?_, ?_⟩
      · have e1 : generate_struct_schema (n+1) c3_files c3_state "Node" =
            match struct_fields_fold n c3_files c3_state c3_fields with
            | none => none
            | some (properties, required, st') =>
                some { st' with
                         schemas := insert_assoc st'.schemas "Node"
                           (.mk (some "object") (some properties)
                             (if required.isEmpty then none else some required)
                             none none none none) } := rfl
        rw [e1, ih2]
      · have e2 : struct_fields_fold (n+1) c3_files c3_state c3_fields =
            match type_info_to_property n c3_files c3_state c3_vec_ti with
            | none => none
            | some (property, st1) =>
                match struct_fields_fold n c3_files st1 [] with
                | none => none
                | some (props, req, st2) =>
                    some (("children", property) :: props,
                      "children" :: req, st2) := rfl
        rw [e2, ih3]
      · have e3 : type_info_to_property (n+1) c3_files c3_state c3_vec_ti =
            match generate_schema n c3_files c3_state (TypeInfo.new "Node")
              with
            | none => none
            | some (items_schema, st') =>
                some (.mk (some "array") none (some items_schema) none,
                  st') := rfl
        rw [e3, ih4]
      · have e4 : generate_schema (n+1) c3_files c3_state
            (TypeInfo.new "Node") =
            match generate_struct_schema n c3_files c3_state "Node" with
            | none => none
            | some st' => some (ref_schema "Node", st') := rfl
        rw [e4, ih1]

/-- C3, code_bug: resolving the self-referential `Node` succeeds and caches
the struct, but schema generation for it exhausts every fuel bound: the
source recursion never terminates on this input. -/
theorem claim_C3_theorem :
    resolve_type c3_files ResolverState.init "Node" =
      (some ⟨"Node", .structK ⟨c3_fields⟩⟩, c3_state.resolver) ∧
    ∀ fuel : Nat,
      generate_schema fuel c3_files GenState.init (TypeInfo.new "Node") =
        none := by
  constructor
  · simp [resolve_type, ResolverState.init, lookup_assoc, set_insert,
      set_remove, insert_assoc, parse_primitive_type, find_struct_definition,
      find_struct_in_items, c3_files, parse_struct_definition,
      parse_struct_fields, parse_field, parse_serde_attributes,
      resolver_extract_type_info, resolver_extract_from_path,
      resolver_extract_generic, resolver_collect_args, first_type_arg,
      PathSeg.ident, PathSeg.arguments, mk_vec_ty, TypeInfo.new, TypeInfo.vec,
      TypeInfo.is_option, c3_state, c3_fields, c3_vec_ti]
  · intro fuel
    cases fuel with
    | zero => simp [generate_schema]
    | succ n =>
        have e : generate_schema (n+1) c3_files GenState.init
            (TypeInfo.new "Node") =
            match generate_struct_schema n c3_files c3_state "Node" with
            | none => none
            | some st' => some (ref_schema "Node", st') := by
          rw [generate_schema]
          simp only [TypeInfo.new, TypeInfo.is_option, TypeInfo.is_vec,
            TypeInfo.name, TypeInfo.generic_args, GenState.init,
            ResolverState.init, reduceIte]
          simp only [resolve_type, lookup_assoc, set_insert, set_remove,
            parse_primitive_type, find_struct_definition, find_struct_in_items,
            c3_files, parse_struct_definition, parse_struct_fields,
            parse_field, parse_serde_attributes, resolver_extract_type_info,
            resolver_extract_from_path, resolver_extract_generic,
            resolver_collect_args, first_type_arg, PathSeg.ident,
            PathSeg.arguments, mk_vec_ty, TypeInfo.vec, TypeInfo.is_option]
          simp only [Bool.false_eq_true, reduceIte, List.head?_nil,
            List.contains, List.elem]
          simp [c3_state, c3_fields, c3_vec_ti, insert_assoc, lookup_assoc,
            contains_substr, extract_rename_value, list_find_sub,
            starts_with_char, TypeInfo.vec, TypeInfo.new,
            resolver_extract_type_info, resolver_extract_from_path,
            resolver_extract_generic, resolver_collect_args, first_type_arg,
            PathSeg.ident, PathSeg.arguments]
        rw [e, (c3_cycle_diverges n).1]

theorem wf_new (s : String) : (TypeInfo.new s).wf = true := by
  simp [TypeInfo.new, TypeInfo.wf, TypeInfo.wf_list]

theorem wf_option {t : TypeInfo} (h : t.wf = true) :
    (TypeInfo.option t).wf = true := by
  simp [TypeInfo.option, TypeInfo.wf, TypeInfo.wf_list, h]

theorem wf_vec {t : TypeInfo} (h : t.wf = true) :
    (TypeInfo.vec t).wf = true := by
  simp [TypeInfo.vec, TypeInfo.wf, TypeInfo.wf_list, h]

theorem wf_generic {args : List TypeInfo} (h : TypeInfo.wf_list args = true)
    (nm : String) :
    (TypeInfo.mk nm (!args.isEmpty) args false false).wf = true := by
  cases args with
  | nil => simp [TypeInfo.wf, TypeInfo.wf_list]
  | cons a rest => simp [TypeInfo.wf, TypeInfo.wf_list, h]

/-- Well-formedness of every TypeInfo produced by the extraction functions,
jointly by strong induction on input size. -/
theorem c9_aux : ∀ n : Nat,
    (∀ t : Ty, sizeOf t < n → (extract_type_info t).wf = true) ∧
    (∀ t : Ty, sizeOf t < n → (resolver_extract_type_info t).wf = true) ∧
    (∀ segs : List PathSeg, sizeOf segs < n →
      (resolver_extract_from_path segs).wf = true) ∧
    (∀ seg : PathSeg, sizeOf seg < n →
      (resolver_extract_generic seg).wf = true) ∧
    (∀ gargs : List GenArg, sizeOf gargs < n →
      TypeInfo.wf_list (resolver_collect_args gargs) = true) := by
  intro n
  induction n with
  | zero =>
      refine ⟨?_, ?_, ?_, ?_, ?_⟩ <;> (intro x hx; omega)
  | succ n ih =>
      obtain ⟨ih1, ih2, ih3, ih4, ih5⟩ := ih
      refine ⟨?_, ?_, ?_, ?_, ?_⟩
      · intro t ht
        cases t with
        | path segs =>
            simp only [extract_type_info]
            split
            next seg h1 =>
              split
              next =>
                split
                next inner h2 =>
                  have hlt : sizeOf inner < n := by
                    have h3 := sizeOf_first_type_arg_lt_path h1 h2
                    omega
                  exact wf_option (ih1 inner hlt)
                next => exact wf_new _
              next =>
                split
                next =>
                  split
                  next inner h2 =>
                    have hlt : sizeOf inner < n := by
                      have h3 := sizeOf_first_type_arg_lt_path h1 h2
                      omega
                    exact wf_vec (ih1 inner hlt)
                  next => exact wf_new _
                next => exact wf_new _
            next => exact wf_new _
        | reference e => simp [extract_type_info, wf_new]
        | implTrait => simp [extract_type_info, wf_new]
        | tuple es => simp [extract_type_info, wf_new]
        | otherTy => simp [extract_type_info, wf_new]
      · intro t ht
        cases t with
        | path segs =>
            simp only [resolver_extract_type_info]
            have hs : sizeOf segs < n := by simp at ht; omega
            exact ih3 segs hs
        | reference e => simp [resolver_extract_type_info, wf_new]
        | implTrait => simp [resolver_extract_type_info, wf_new]
        | tuple es => simp [resolver_extract_type_info, wf_new]
        | otherTy => simp [resolver_extract_type_info, wf_new]
      · intro segs ht
        simp only [resolver_extract_from_path]
        split
        next seg h1 =>
          have hseg : sizeOf seg < n := by
            have h3 := sizeOf_lt_of_getLast? h1
            omega
          split
          next =>
            split
            next inner h2 =>
              have hlt : sizeOf inner < n := by
                have h3 := sizeOf_lt_of_first_type_arg h2
                omega
              exact wf_option (ih2 inner hlt)
            next => exact ih4 seg hseg
          next =>
            split
            next =>
              split
              next inner h2 =>
                have hlt : sizeOf inner < n := by
                  have h3 := sizeOf_lt_of_first_type_arg h2
                  omega
                exact wf_vec (ih2 inner hlt)
              next => exact ih4 seg hseg
            next => exact ih4 seg hseg
        next => exact wf_new _
      · intro seg ht
        rcases seg with ⟨i, pargs⟩
        cases pargs with
        | angle gargs =>
            simp only [resolver_extract_generic]
            have hlt : sizeOf gargs < n := by simp at ht; omega
            exact wf_generic (ih5 gargs hlt) i
        | noArgs => simp [resolver_extract_generic, wf_new]
        | paren => simp [resolver_extract_generic, wf_new]
      · intro gargs ht
        cases gargs with
        | nil => simp [resolver_collect_args, TypeInfo.wf_list]
        | cons g rest =>
            have hrest : sizeOf rest < n := by simp at ht; omega
            cases g with
            | tyArg t =>
                have htl : sizeOf t < n := by simp at ht; omega
                simp only [resolver_collect_args, TypeInfo.wf_list]
                rw [ih2 t htl, ih5 rest hrest]
                rfl
            | otherArg =>
                simp only [resolver_collect_args]
                exact ih5 rest hrest

/-- C9, confirmed: every TypeInfo constructed by the pipeline satisfies the
TypeDescriptor invariant, the wrapper constructors preserve it, and the
single generic argument of an Option or Vec node is exactly the extraction
of the syntactic inner type. -/
theorem claim_C9_theorem :
    (∀ t : Ty, (extract_type_info t).wf = true) ∧
    (∀ t : Ty, (resolver_extract_type_info t).wf = true) ∧
    (∀ s : String, (TypeInfo.new s).wf = true) ∧
    (∀ t : TypeInfo, t.wf = true →
      (TypeInfo.option t).wf = true ∧ (TypeInfo.vec t).wf = true) ∧
    (∀ t : Ty, extract_type_info (mk_option_ty t) =
      TypeInfo.option (extract_type_info t)) ∧
    (∀ t : Ty, extract_type_info (mk_vec_ty t) =
      TypeInfo.vec (extract_type_info t)) := by
  refine ⟨?_, ?_, wf_new, ?_, ?_, ?_⟩
  · intro t
    exact (c9_aux (sizeOf t + 1)).1 t (by omega)
  · intro t
    exact (c9_aux (sizeOf t + 1)).2.1 t (by omega)
  · intro t h
    exact ⟨wf_option h, wf_vec h⟩
  · intro t
    simp [extract_type_info, mk_option_ty, first_type_arg, PathSeg.ident,
      PathSeg.arguments]
  · intro t
    simp [extract_type_info, mk_vec_ty, first_type_arg, PathSeg.ident,
      PathSeg.arguments]

theorem claim_C9_witness :
    (TypeInfo.new "User").wf = true ∧
    (TypeInfo.option (TypeInfo.new "User")).wf = true ∧
    (TypeInfo.vec (TypeInfo.new "User")).wf = true :=
  ⟨claim_C9_theorem.2.2.1 "User",
   (claim_C9_theorem.2.2.2.1 _ (claim_C9_theorem.2.2.1 "User")).1,
   (claim_C9_theorem.2.2.2.1 _ (claim_C9_theorem.2.2.1 "User")).2⟩


end OpenapiFromSource
